import Mathlib

/-!
Verification development for the `links` resource-telemetry engine.

The Go source (package `internal/http`) is shallowly embedded below:
`float64` becomes `ℚ` (exact field arithmetic; the claims under study are
about formulas, clamping, caching and trimming, not rounding), epoch-milli
timestamps become `ℤ`, Go `error` values become `Option String` (the
`Error()` message), Go nil-able slices become `Option (List _)`, and Go
maps become association lists (plus an explicit heap model where aliasing
matters).  Samplers that read the OS are oracle inputs supplied per tick.
-/

namespace Links

/-! ## Data model (`resources_types.go`) -/

structure SnapshotError where
  cpu : String
  memory : String
  disks : String
  gpus : String
  hostIP : String
deriving Repr, DecidableEq

structure CPUStats where
  percent : ℚ
  model : String
  physicalCores : ℤ
  logicalCores : ℤ
  currentMHz : ℚ
  maxMHz : ℚ
  currentPercentOfMax : ℚ
  temperatureC : Option ℚ
  performanceCores : ℤ
  efficiencyCores : ℤ
  performanceThreads : ℤ
  efficiencyThreads : ℤ
deriving Repr, DecidableEq

structure MemoryModuleInfo where
  label : String
  vendor : String
  sizeBytes : ℕ
deriving Repr, DecidableEq

structure SwapDeviceStats where
  name : String
  kind : String
  sizeBytes : ℕ
  usedBytes : ℕ
deriving Repr, DecidableEq

structure MemoryStats where
  totalBytes : ℕ
  usedBytes : ℕ
  usedPercent : ℚ
  swapTotalBytes : ℕ
  swapUsedBytes : ℕ
  swapUsedPercent : ℚ
  modules : List MemoryModuleInfo
  swapDevices : List SwapDeviceStats
deriving Repr, DecidableEq

structure DiskStats where
  mountpoint : String
  device : String
  filesystem : String
  driveType : String
  model : String
  totalBytes : ℕ
  usedBytes : ℕ
  usedPercent : ℚ
deriving Repr, DecidableEq

structure GPUStats where
  index : ℤ
  name : String
  vendor : String
  driver : String
  utilizationPercent : Option ℚ
  memoryTotalBytes : Option ℕ
  memoryUsedBytes : Option ℕ
  temperatureC : Option ℚ
deriving Repr, DecidableEq

structure ProcessSample where
  pid : ℤ
  name : String
  cpuPercent : ℚ
  memoryBytes : ℕ
  memoryPercent : ℚ
deriving Repr, DecidableEq

/-- `HistoryPoint`; the Go `map[string]float64` for per-mount usage is an
association list at the value level (a heap model follows for C7). -/
structure HistoryPoint where
  time : ℤ
  cpu : ℚ
  mem : ℚ
  disks : List (String × ℚ)
deriving Repr, DecidableEq

structure ResourcesSnapshot where
  hostIP : String
  updatedAt : ℤ
  cpu : CPUStats
  memory : MemoryStats
  disks : Option (List DiskStats)
  gpus : Option (List GPUStats)
  processes : ℤ
  topCPU : Option ProcessSample
  topMemory : Option ProcessSample
  history : List HistoryPoint
  errors : SnapshotError
deriving Repr, DecidableEq

/-- Go zero value of `CPUStats`. -/
def CPUStats.zero : CPUStats :=
  { percent := 0, model := "", physicalCores := 0, logicalCores := 0,
    currentMHz := 0, maxMHz := 0, currentPercentOfMax := 0, temperatureC := none,
    performanceCores := 0, efficiencyCores := 0,
    performanceThreads := 0, efficiencyThreads := 0 }

/-- Go zero value of `MemoryStats`. -/
def MemoryStats.zero : MemoryStats :=
  { totalBytes := 0, usedBytes := 0, usedPercent := 0,
    swapTotalBytes := 0, swapUsedBytes := 0, swapUsedPercent := 0,
    modules := [], swapDevices := [] }

/-- Go zero value of `SnapshotError`. -/
def SnapshotError.zero : SnapshotError :=
  { cpu := "", memory := "", disks := "", gpus := "", hostIP := "" }

/-! ## Constants (`resources_process.go`), in milliseconds. -/

def hardwareMetaTTL : ℤ := 30 * 1000
def hostIPTTL : ℤ := 30 * 1000
def cpuStaticTTL : ℤ := 60 * 1000
def cpuDynamicTTLLinux : ℤ := 2 * 1000
def cpuDynamicTTLOther : ℤ := 5 * 1000
def disksSampleTTL : ℤ := 5 * 1000
def gpusSampleTTL : ℤ := 5 * 1000
def historyMaxAgeMs : ℤ := 30 * 60 * 1000
def historyMaxPoints : ℕ := 2000

/-! ## CPU-percent estimator (`sampleCPUPercent`, part_004) -/

/-- One `cpu.TimesStat` row from gopsutil. -/
structure CPUTimesStat where
  user : ℚ
  system : ℚ
  idle : ℚ
  nice : ℚ
  iowait : ℚ
  irq : ℚ
  softirq : ℚ
  steal : ℚ
  guest : ℚ
  guestNice : ℚ
deriving Repr, DecidableEq

/-- `cpuTimesTotal` from the source. -/
def cpuTimesTotal (t : CPUTimesStat) : ℚ :=
  t.user + t.system + t.idle + t.nice + t.iowait + t.irq + t.softirq +
    t.steal + t.guest + t.guestNice

/-- The estimator's mutable fields of `ResourceMonitor`. -/
structure CPUPrevState where
  prevTotal : ℚ
  prevIdle : ℚ
  havePrevCPU : Bool
deriving Repr, DecidableEq

/-- `sampleCPUPercent`: the oracle argument is the result of `cpu.Times(false)`.
Returns ((percent, error), new estimator state). -/
def sampleCPUPercent (m : CPUPrevState) (timesRes : Except String (List CPUTimesStat)) :
    (ℚ × Option String) × CPUPrevState :=
  match timesRes with
  | .error e => ((0, some e), m)
  | .ok [] => ((0, none), m)
  | .ok (t :: _) =>
    let total := cpuTimesTotal t
    let idle := t.idle + t.iowait
    if !m.havePrevCPU then
      ((0, none), ⟨total, idle, true⟩)
    else
      let totalDelta := total - m.prevTotal
      let idleDelta := idle - m.prevIdle
      let m' : CPUPrevState := ⟨total, idle, true⟩
      if totalDelta ≤ 0 then ((0, none), m')
      else
        let usage := (totalDelta - idleDelta) / totalDelta * 100
        if usage < 0 then ((0, none), m')
        else if usage > 100 then ((100, none), m')
        else ((usage, none), m')

/-! ## History ring (`appendHistoryLocked`, `cloneHistory`) -/

/-- Go map insertion (`m[k] = v`) on the association-list model. -/
def mapInsert (m : List (String × ℚ)) (k : String) (v : ℚ) : List (String × ℚ) :=
  if m.any (fun p => p.1 = k) then
    m.map (fun p => if p.1 = k then (k, v) else p)
  else m ++ [(k, v)]

/-- The `HistoryPoint` built at the top of `appendHistoryLocked`: time, CPU
percent, memory percent, and one map entry per disk with a non-empty
mountpoint. -/
def mkHistoryPoint (snap : ResourcesSnapshot) : HistoryPoint :=
  { time := snap.updatedAt
    cpu := snap.cpu.percent
    mem := snap.memory.usedPercent
    disks := (snap.disks.getD []).foldl
      (fun acc d => if d.mountpoint = "" then acc else mapInsert acc d.mountpoint d.usedPercent)
      [] }

/-- `appendHistoryLocked`: append the derived point, then the age trim
(drop the leading run of points older than `snap.UpdatedAt - historyMaxAge`),
then the count trim (keep the last `historyMaxPoints`). -/
def appendHistoryLocked (history : List HistoryPoint) (snap : ResourcesSnapshot) :
    List HistoryPoint :=
  let h1 := history ++ [mkHistoryPoint snap]
  let cutoff := snap.updatedAt - historyMaxAgeMs
  let h2 := h1.dropWhile (fun p => decide (p.time < cutoff))
  if historyMaxPoints < h2.length then h2.drop (h2.length - historyMaxPoints) else h2

/-- `cloneHistory` (value level): the Go function copies the slice and each
non-nil per-mount map; on values this is entry-by-entry reconstruction. -/
def cloneHistory (src : List HistoryPoint) : List HistoryPoint :=
  match src with
  | [] => []
  | _ => src.map (fun h => { h with disks := h.disks.map (fun kv => kv) })

theorem cloneHistory_eq (src : List HistoryPoint) : cloneHistory src = src := by
  cases src with
  | nil => rfl
  | cons a l =>
    simp [cloneHistory]

/-! ## Go string plumbing used by the tick -/

/-- Go `strings.Join(l, sep)`. -/
def goJoin (sep : String) : List String → String
  | [] => ""
  | [a] => a
  | a :: b :: rest => a ++ sep ++ goJoin sep (b :: rest)

/-- Go `strings.TrimSpace`: strip leading and trailing whitespace. -/
def trimSpace (s : String) : String :=
  ⟨((s.data.dropWhile Char.isWhitespace).reverse.dropWhile Char.isWhitespace).reverse⟩

/-- The CPU error list joined with `"; "` (empty when no sub-family
errored), as assembled by `update`. -/
def cpuErrString (cpuPercentErr cstErr cdyErr : Option String) : String :=
  let cpuErrs := cpuPercentErr.toList ++ cstErr.toList ++ cdyErr.toList
  if 0 < cpuErrs.length then goJoin "; " cpuErrs else ""

/-- `errs.CPU` after folding in a process-count failure. -/
def cpuErrWithProc (base : String) (procRes : Except String ℤ) : String :=
  match procRes with
  | .ok _ => base
  | .error e => trimSpace (goJoin "; " [base, "processes: " ++ e])

/-- `errs.CPU` after folding in a top-process-scan failure. -/
def cpuErrWithTop (base : String) (topErr : Option String) : String :=
  match topErr with
  | none => base
  | some e => trimSpace (goJoin "; " [base, "top processes: " ++ e])

/-- `if err != nil { field = err.Error() }` on a zero-valued field. -/
def optErrStr (E : Option String) : String :=
  match E with
  | some e => e
  | none => ""

/-! ## Monitor state and the tick (`ResourceMonitor`, `update`) -/

/-- The mutable sampling state of `ResourceMonitor` that the tick owns.
A Go zero `time.Time` is `none`; a set timestamp is `some` epoch millis.
The per-process top-sampler state is not modelled (its output arrives as an
oracle input per tick). -/
structure Monitor where
  snapshot : ResourcesSnapshot
  prevTotal : ℚ
  prevIdle : ℚ
  havePrevCPU : Bool
  hostIP : String
  hostIPUpdatedAt : Option ℤ
  hostIPErr : Option String
  cpuStatic : CPUStats
  cpuStaticUpdatedAt : Option ℤ
  cpuStaticErr : Option String
  cpuDynamic : CPUStats
  cpuDynamicUpdatedAt : Option ℤ
  cpuDynamicErr : Option String
  disksCache : Option (List DiskStats)
  disksUpdatedAt : Option ℤ
  disksErr : Option String
  gpusCache : Option (List GPUStats)
  gpusUpdatedAt : Option ℤ
  gpusErr : Option String
  history : List HistoryPoint
deriving Repr, DecidableEq

/-- `NewResourceMonitor`. -/
def newResourceMonitor : Monitor :=
  { snapshot :=
      { hostIP := "", updatedAt := 0, cpu := CPUStats.zero, memory := MemoryStats.zero,
        disks := none, gpus := none, processes := 0, topCPU := none, topMemory := none,
        history := [], errors := SnapshotError.zero }
    prevTotal := 0, prevIdle := 0, havePrevCPU := false
    hostIP := "", hostIPUpdatedAt := none, hostIPErr := none
    cpuStatic := CPUStats.zero, cpuStaticUpdatedAt := none, cpuStaticErr := none
    cpuDynamic := CPUStats.zero, cpuDynamicUpdatedAt := none, cpuDynamicErr := none
    disksCache := none, disksUpdatedAt := none, disksErr := none
    gpusCache := none, gpusUpdatedAt := none, gpusErr := none
    history := [] }

/-- `now.Sub(last) >= ttl` in Go; a zero `time.Time` makes the elapsed span
enormous, hence always expired. -/
def ttlExpired (now : ℤ) (last : Option ℤ) (ttl : ℤ) : Bool :=
  match last with
  | none => true
  | some t => decide (ttl ≤ now - t)

/-- The per-tick results of every OS/hardware sampler the tick invokes,
supplied as an oracle: `(value, error)` pairs mirror the Go return values.
`disksRes.1 = none` models `sampleDisks` returning a nil slice. -/
structure TickInput where
  now : ℤ
  hostIPRes : String × Option String
  cpuTimesRes : Except String (List CPUTimesStat)
  cpuStaticRes : CPUStats × Option String
  cpuDynamicRes : CPUStats × Option String
  memoryRes : MemoryStats × Option String
  disksRes : Option (List DiskStats) × Option String
  gpusRes : Option (List GPUStats) × Option String
  procCountRes : Except String ℤ
  topProcRes : (Option ProcessSample × Option ProcessSample) × Option String
deriving Repr

/-- `ResourceMonitor.update`: one tick.  `goosLinux` is `runtime.GOOS ==
"linux"` (it selects the dynamic-CPU TTL).  Each family refreshes exactly
as in the source: host IP whenever the cached string is empty or its TTL
elapsed, the others whenever their timestamp is zero or their TTL elapsed;
disks/GPUs keep the previous cached slice when the sampler returned a nil
slice together with an error. -/
def update (goosLinux : Bool) (inp : TickInput) (m : Monitor) : Monitor :=
  let now := inp.now
  let hipT : String × Option String × Option ℤ :=
    if m.hostIP = "" ∨ ttlExpired now m.hostIPUpdatedAt hostIPTTL then
      (inp.hostIPRes.1, inp.hostIPRes.2, some now)
    else (m.hostIP, m.hostIPErr, m.hostIPUpdatedAt)
  let hip := hipT.1
  let hipErr := hipT.2.1
  let hipAt := hipT.2.2
  let errHostIP := optErrStr hipErr
  let cp := sampleCPUPercent ⟨m.prevTotal, m.prevIdle, m.havePrevCPU⟩ inp.cpuTimesRes
  let cpuPercent := cp.1.1
  let cpuPercentErr := cp.1.2
  let cstT : CPUStats × Option String × Option ℤ :=
    if m.cpuStaticUpdatedAt.isNone ∨ ttlExpired now m.cpuStaticUpdatedAt cpuStaticTTL then
      (inp.cpuStaticRes.1, inp.cpuStaticRes.2, some now)
    else (m.cpuStatic, m.cpuStaticErr, m.cpuStaticUpdatedAt)
  let cst := cstT.1
  let cstErr := cstT.2.1
  let cstAt := cstT.2.2
  let cpuDynTTL := if goosLinux then cpuDynamicTTLLinux else cpuDynamicTTLOther
  let cdyT : CPUStats × Option String × Option ℤ :=
    if m.cpuDynamicUpdatedAt.isNone ∨ ttlExpired now m.cpuDynamicUpdatedAt cpuDynTTL then
      (inp.cpuDynamicRes.1, inp.cpuDynamicRes.2, some now)
    else (m.cpuDynamic, m.cpuDynamicErr, m.cpuDynamicUpdatedAt)
  let cdy := cdyT.1
  let cdyErr := cdyT.2.1
  let cdyAt := cdyT.2.2
  let cpuStats : CPUStats :=
    { percent := cpuPercent
      model := cst.model
      physicalCores := cst.physicalCores
      logicalCores := cst.logicalCores
      currentMHz := cdy.currentMHz
      maxMHz := cdy.maxMHz
      currentPercentOfMax := cdy.currentPercentOfMax
      temperatureC := cdy.temperatureC
      performanceCores := cdy.performanceCores
      efficiencyCores := cdy.efficiencyCores
      performanceThreads := cdy.performanceThreads
      efficiencyThreads := cdy.efficiencyThreads }
  let errCPU0 := cpuErrString cpuPercentErr cstErr cdyErr
  let memStats := inp.memoryRes.1
  let errMemory := optErrStr inp.memoryRes.2
  let dT : Option (List DiskStats) × Option String × Option ℤ :=
    if m.disksUpdatedAt.isNone ∨ ttlExpired now m.disksUpdatedAt disksSampleTTL then
      ((if inp.disksRes.1.isSome ∨ inp.disksRes.2.isNone then inp.disksRes.1 else m.disksCache),
        inp.disksRes.2, some now)
    else (m.disksCache, m.disksErr, m.disksUpdatedAt)
  let dCache := dT.1
  let dErr := dT.2.1
  let dAt := dT.2.2
  let errDisks := optErrStr dErr
  let gT : Option (List GPUStats) × Option String × Option ℤ :=
    if m.gpusUpdatedAt.isNone ∨ ttlExpired now m.gpusUpdatedAt gpusSampleTTL then
      ((if inp.gpusRes.1.isSome ∨ inp.gpusRes.2.isNone then inp.gpusRes.1 else m.gpusCache),
        inp.gpusRes.2, some now)
    else (m.gpusCache, m.gpusErr, m.gpusUpdatedAt)
  let gCache := gT.1
  let gErr := gT.2.1
  let gAt := gT.2.2
  let errGPUs := optErrStr gErr
  let procCount : ℤ := match inp.procCountRes with | .ok n => n | .error _ => 0
  let errCPU1 := cpuErrWithProc errCPU0 inp.procCountRes
  let errCPU2 := cpuErrWithTop errCPU1 inp.topProcRes.2
  let errs : SnapshotError :=
    { cpu := errCPU2, memory := errMemory, disks := errDisks, gpus := errGPUs,
      hostIP := errHostIP }
  let snap : ResourcesSnapshot :=
    { hostIP := hip, updatedAt := now, cpu := cpuStats, memory := memStats,
      disks := dCache, gpus := gCache, processes := procCount,
      topCPU := inp.topProcRes.1.1, topMemory := inp.topProcRes.1.2,
      history := [], errors := errs }
  { snapshot := snap
    prevTotal := cp.2.prevTotal, prevIdle := cp.2.prevIdle, havePrevCPU := cp.2.havePrevCPU
    hostIP := hip, hostIPUpdatedAt := hipAt, hostIPErr := hipErr
    cpuStatic := cst, cpuStaticUpdatedAt := cstAt, cpuStaticErr := cstErr
    cpuDynamic := cdy, cpuDynamicUpdatedAt := cdyAt, cpuDynamicErr := cdyErr
    disksCache := dCache, disksUpdatedAt := dAt, disksErr := dErr
    gpusCache := gCache, gpusUpdatedAt := gAt, gpusErr := gErr
    history := appendHistoryLocked m.history snap }

/-- `ResourceMonitor.Snapshot`: copy-on-read accessor; disk/GPU slices are
re-sliced copies (value-identical) and the history is attached only when
requested. -/
def snapshotAccessor (m : Monitor) (includeHistory : Bool) : ResourcesSnapshot :=
  let snap := m.snapshot
  if includeHistory then { snap with history := cloneHistory m.history } else snap

/-- States of the engine reachable from `NewResourceMonitor` through ticks
(`Start` runs one `update` immediately and then one per ticker event). -/
inductive Reachable : Monitor → Prop
  | init : Reachable newResourceMonitor
  | step (goosLinux : Bool) (inp : TickInput) (m : Monitor) :
      Reachable m → Reachable (update goosLinux inp m)

/-- Runs a sequence of ticks (`foldl` of `update`). -/
def runUpdates (goosLinux : Bool) (inps : List TickInput) (m : Monitor) : Monitor :=
  inps.foldl (fun acc inp => update goosLinux inp acc) m

/-! ## Engine lifecycle (`Start`, part of C8) -/

/-- The ticker interval passed to `time.NewTicker` in `Start`, in
milliseconds. -/
def startTickerIntervalMs : ℤ := 1000

/-- One event the `Start` goroutine's `select` can observe. -/
inductive EngineEvent where
  | stop : EngineEvent
  | tick (inp : TickInput) : EngineEvent
deriving Repr

/-- The `for`/`select` loop of `Start`: a `stop` event returns immediately,
a `tick` event runs `update` and continues. -/
def runLoop (goosLinux : Bool) : List EngineEvent → Monitor → Monitor
  | [], m => m
  | .stop :: _, m => m
  | .tick inp :: rest, m => runLoop goosLinux rest (update goosLinux inp m)

/-- `Start`: the initial `update` runs synchronously before any ticker
event, then the loop consumes events. -/
def startEngine (goosLinux : Bool) (first : TickInput) (events : List EngineEvent)
    (m : Monitor) : Monitor :=
  runLoop goosLinux events (update goosLinux first m)

/-! ## String helpers (Go `strings.HasPrefix` / `strings.Contains`) -/

/-- Character-list version of Go `strings.HasPrefix`. -/
def listStarts : List Char → List Char → Bool
  | [], _ => true
  | _ :: _, [] => false
  | a :: ps, b :: l => a = b && listStarts ps l

/-- Character-list version of Go `strings.Contains`. -/
def listHasSub : List Char → List Char → Bool
  | pat, [] => listStarts pat []
  | pat, b :: t => listStarts pat (b :: t) || listHasSub pat t

/-- Go `strings.HasPrefix s pat`. -/
def strStarts (s pat : String) : Bool := listStarts pat.toList s.toList

/-- Go `strings.Contains s pat`. -/
def strContains (s pat : String) : Bool := listHasSub pat.toList s.toList

/-- Go `strings.ToLower` (character-wise lowering on the char list). -/
def goToLower (s : String) : String := ⟨s.data.map Char.toLower⟩

/-! ## GPU merge (`mergeNvidiaSMIMetrics`, `sampleGPUs`, part_002) -/

/-- One parsed `nvidia-smi` CSV row. -/
structure NvidiaSMIGPU where
  name : String
  utilPercent : ℚ
  memUsedBytes : ℕ
  memTotalBytes : ℕ
  tempC : ℚ
deriving Repr, DecidableEq

/-- `strings.Contains(strings.ToLower(g.Vendor), "nvidia")`. -/
def vendorMatchesNvidia (g : GPUStats) : Bool :=
  strContains (goToLower g.vendor) "nvidia"

/-- The entry synthesized from a dynamic row when no vendor-tagged static
entry exists. -/
def synthesizedNvidiaEntry (i : ℕ) (mm : NvidiaSMIGPU) : GPUStats :=
  { index := (i : ℤ), name := mm.name, vendor := "NVIDIA", driver := "",
    utilizationPercent := some mm.utilPercent,
    memoryUsedBytes := some mm.memUsedBytes,
    memoryTotalBytes := some mm.memTotalBytes,
    temperatureC := some mm.tempC }

/-- The overlay `mergeNvidiaSMIMetrics` applies to the static entry at a
paired position. -/
def overlayNvidia (g : GPUStats) (mm : NvidiaSMIGPU) : GPUStats :=
  { g with
    name := if g.name.trim = "" then mm.name else g.name
    utilizationPercent := some mm.utilPercent
    temperatureC := some mm.tempC
    memoryUsedBytes := some mm.memUsedBytes
    memoryTotalBytes := some mm.memTotalBytes }

/-- `mergeNvidiaSMIMetrics`: collect the indices of vendor-tagged entries;
if none exist, append one synthesized entry per dynamic row; otherwise
overlay the rows positionally (rows beyond the tagged entries are
dropped, mirroring the `break`). -/
def mergeNvidiaSMIMetrics (gpus : List GPUStats) (metrics : List NvidiaSMIGPU) :
    List GPUStats :=
  let nvidiaIdx := (List.range gpus.length).filter
    (fun i => match gpus.get? i with
      | some g => vendorMatchesNvidia g
      | none => false)
  if nvidiaIdx.length = 0 then
    gpus ++ metrics.enum.map (fun pr => synthesizedNvidiaEntry pr.1 pr.2)
  else
    metrics.enum.foldl (fun acc pr =>
      if pr.1 < nvidiaIdx.length then
        let pos := nvidiaIdx.getD pr.1 0
        match acc.get? pos with
        | some g => acc.set pos (overlayNvidia g pr.2)
        | none => acc
      else acc) gpus

/-- `sampleGPUs`: oracle arguments are the results of `getGPUMeta` (static
inventory) and `nvidiaSMIMetrics` (dynamic tool). -/
def sampleGPUs (base : Option (List GPUStats)) (ghwErr : Option String)
    (metrics : Option (List NvidiaSMIGPU)) (smiErr : Option String) :
    Option (List GPUStats) × Option String :=
  let gpus0 := base.getD []
  let ms := metrics.getD []
  let gpus := if 0 < ms.length then mergeNvidiaSMIMetrics gpus0 ms else gpus0
  if gpus.length = 0 then
    match ghwErr, smiErr with
    | some ge, some se => (none, some ("gpu: ghw=" ++ ge ++ "; nvidia-smi=" ++ se))
    | _, _ => (none, none)
  else (some gpus, none)

/-! ## Disk selection (`sampleDisks`, part_003) -/

/-- One `disk.PartitionStat` row. -/
structure PartitionStat where
  device : String
  mountpoint : String
  fstype : String
deriving Repr, DecidableEq

/-- The fixed pseudo-filesystem exclusion set. -/
def ignoredFSTypes : List String :=
  ["autofs", "cgroup", "cgroup2", "configfs", "debugfs", "devfs", "devpts",
   "devtmpfs", "fusectl", "hugetlbfs", "mqueue", "proc", "pstore", "overlay",
   "squashfs", "securityfs", "sysfs", "tmpfs", "tracefs"]

/-- `selected[mp] = struct{}{}` on the set-of-mountpoints model. -/
def addMount (sel : List String) (mp : String) : List String :=
  if sel.contains mp then sel else sel ++ [mp]

/-- The loop body of the `case "linux"` branch of the selection `switch`. -/
def linuxSelStep (sel : List String) (p : PartitionStat) : List String :=
  if p.mountpoint = "" ∨ p.mountpoint = "/" then sel
  else if ignoredFSTypes.contains p.fstype then sel
  else
    let mp := p.mountpoint.trim
    if mp = "" then sel
    else if mp = "/mnt" ∨ strStarts mp "/mnt/" ∨ strStarts mp "/media/" ∨
        strStarts mp "/run/media/" then addMount sel mp
    else
      let dev := p.device.trim
      if strStarts dev "/dev/" ∧ ¬strContains dev "loop" then addMount sel mp
      else if strStarts mp "/" ∧ ¬strStarts mp "/sys/" ∧ ¬strStarts mp "/proc/" ∧
          ¬strStarts mp "/dev/" then addMount sel p.mountpoint
      else sel

/-- The `case "linux"` branch: start from `{"/"}` and add qualifying
mounts. -/
def selectLinuxMounts (parts : List PartitionStat) : List String :=
  parts.foldl linuxSelStep ["/"]

/-- The loop body of the `case "windows"` branch
(`len(mp) >= 2 && mp[1] == ':'`). -/
def windowsSelStep (sel : List String) (p : PartitionStat) : List String :=
  if p.mountpoint = "" then sel
  else if 2 ≤ p.mountpoint.length ∧ p.mountpoint.toList.get? 1 = some ':' then
    addMount sel p.mountpoint
  else sel

/-- The `case "windows"` branch: one entry per drive-letter style mount. -/
def selectWindowsMounts (parts : List PartitionStat) : List String :=
  parts.foldl windowsSelStep []

/-- The mountpoint-selection part of `sampleDisks`, including the final
fallback: when the platform policy selected nothing, take the first
partition with a non-empty mountpoint. -/
def selectMounts (goos : String) (parts : List PartitionStat) : List String :=
  let selected :=
    if goos = "linux" then selectLinuxMounts parts
    else if goos = "windows" then selectWindowsMounts parts
    else ["/"]
  if selected.length = 0 then
    match parts.find? (fun p => !(p.mountpoint = "")) with
    | some p => [p.mountpoint]
    | none => []
  else selected

/-! ## Preferred host IP (`resources_hostip.go`) -/

/-- A four-byte IPv4 address (the result of a successful `To4`). -/
structure IPv4 where
  b0 : ℕ
  b1 : ℕ
  b2 : ℕ
  b3 : ℕ
deriving Repr, DecidableEq

/-- `net.IP.IsLoopback` for IPv4: `127.0.0.0/8`. -/
def ipIsLoopback (ip : IPv4) : Bool := ip.b0 = 127

/-- `net.IP.IsLinkLocalUnicast` for IPv4: `169.254.0.0/16`. -/
def ipIsLinkLocalUnicast (ip : IPv4) : Bool := ip.b0 = 169 && ip.b1 = 254

/-- `net.IP.IsLinkLocalMulticast` for IPv4: `224.0.0.0/24`. -/
def ipIsLinkLocalMulticast (ip : IPv4) : Bool :=
  ip.b0 = 224 && ip.b1 = 0 && ip.b2 = 0

/-- One `net.Interface`: flags plus the result of `Addrs()`; `none` models an
`Addrs` error (the interface is skipped), an inner `none` models an address
that is not IPv4-convertible (or an unknown address type). -/
structure NetInterface where
  up : Bool
  loopback : Bool
  addrs : Option (List (Option IPv4))
deriving Repr, DecidableEq

/-- The candidate-collection loop of `preferredHostIP`. -/
def candidatesOf (ifaces : List NetInterface) : List IPv4 :=
  ifaces.foldl (fun cs iface =>
    if !iface.up then cs
    else if iface.loopback then cs
    else match iface.addrs with
      | none => cs
      | some addrs =>
        addrs.foldl (fun cs' a =>
          match a with
          | none => cs'
          | some ip =>
            if ipIsLoopback ip || ipIsLinkLocalUnicast ip || ipIsLinkLocalMulticast ip
            then cs' else cs' ++ [ip]) cs) []

/-- `isPrivateIPv4` (the length-4 normalization is implicit: `IPv4` is
always four bytes). -/
def isPrivateIPv4 (ip : IPv4) : Bool :=
  if ip.b0 = 10 then true
  else if ip.b0 = 172 && 16 ≤ ip.b1 && ip.b1 ≤ 31 then true
  else if ip.b0 = 192 && ip.b1 = 168 then true
  else false

/-- `net.IP.String` for IPv4. -/
def ipString (ip : IPv4) : String :=
  toString ip.b0 ++ "." ++ toString ip.b1 ++ "." ++ toString ip.b2 ++ "." ++ toString ip.b3

/-- `preferredHostIP`: the oracle argument is the result of
`net.Interfaces()`. -/
def preferredHostIP (ifacesRes : Except String (List NetInterface)) :
    String × Option String :=
  match ifacesRes with
  | .error e => ("", some e)
  | .ok ifaces =>
    let candidates := candidatesOf ifaces
    match candidates.find? (fun ip => ip.b0 = 192 && ip.b1 = 168 && ip.b2 = 1) with
    | some ip => (ipString ip, none)
    | none =>
      match candidates.find? (fun ip => ip.b0 = 192 && ip.b1 = 168) with
      | some ip => (ipString ip, none)
      | none =>
        match candidates.find? isPrivateIPv4 with
        | some ip => (ipString ip, none)
        | none =>
          match candidates with
          | ip :: _ => (ipString ip, none)
          | [] => ("", none)

/-! ## Heap model for the per-mount maps (C7)

Go maps are references; `cloneHistory` allocates a fresh map per non-nil
`Disks` field and `appendHistoryLocked` allocates a fresh map for the new
point.  To state the aliasing claims we model map references as addresses
into an allocation-counter heap. -/

/-- A heap of per-mount maps: `next` is the allocation counter, every
address below `next` is allocated. -/
structure MapHeap where
  next : ℕ
  store : ℕ → List (String × ℚ)

/-- A history point whose `Disks` field is a map reference (`none` = Go
nil map). -/
structure HPoint where
  time : ℤ
  cpu : ℚ
  mem : ℚ
  disks : Option ℕ
deriving Repr, DecidableEq

/-- Allocate one fresh map holding `v`. -/
def allocMap (h : MapHeap) (v : List (String × ℚ)) : MapHeap × ℕ :=
  (⟨h.next + 1, fun x => if x = h.next then v else h.store x⟩, h.next)

/-- Mutate the map at address `a` (`m[k] = v` through a retained
reference). -/
def writeMap (h : MapHeap) (a : ℕ) (k : String) (v : ℚ) : MapHeap :=
  ⟨h.next, fun x => if x = a then mapInsert (h.store x) k v else h.store x⟩

/-- `cloneHistory` on the heap model: copy every point; a point with a
non-nil map gets a freshly allocated map holding the same entries. -/
def cloneHistoryHeap (h : MapHeap) : List HPoint → MapHeap × List HPoint
  | [] => (h, [])
  | p :: rest =>
    match p.disks with
    | none =>
      let pr := cloneHistoryHeap h rest
      (pr.1, p :: pr.2)
    | some a =>
      let al := allocMap h (h.store a)
      let pr := cloneHistoryHeap al.1 rest
      (pr.1, { p with disks := some al.2 } :: pr.2)

/-- `appendHistoryLocked` on the heap model: the new point's map is freshly
allocated (Go `make(map[string]float64)`) exactly when some disk has a
non-empty mountpoint; the trims only drop list entries and never write
through any existing map reference. -/
def appendHistoryHeap (h : MapHeap) (hist : List HPoint) (time : ℤ) (cpu mem : ℚ)
    (disks : List DiskStats) : MapHeap × List HPoint :=
  let dm := disks.foldl
    (fun acc d => if d.mountpoint = "" then acc else mapInsert acc d.mountpoint d.usedPercent)
    []
  let h1 := if disks.all (fun d => d.mountpoint = "") then h else (allocMap h dm).1
  let dAddr := if disks.all (fun d => d.mountpoint = "") then none
    else some (allocMap h dm).2
  let hp : HPoint := ⟨time, cpu, mem, dAddr⟩
  let l1 := hist ++ [hp]
  let l2 := l1.dropWhile (fun p => decide (p.time < time - historyMaxAgeMs))
  let l3 := if historyMaxPoints < l2.length then l2.drop (l2.length - historyMaxPoints) else l2
  (h1, l3)

/-! ## C1: CPU-percent estimator -/

/-- C1: on the very first sample (no prior counter state) `sampleCPUPercent`
returns 0 and stores the fresh total/idle counters as the baseline; on a
subsequent sample with `totalDelta > 0` it returns
`(totalDelta - idleDelta) / totalDelta * 100` clamped into `[0, 100]`; and
with `totalDelta ≤ 0` it returns 0. -/
theorem sampleCPUPercent_estimator (m : CPUPrevState) (t : CPUTimesStat)
    (rest : List CPUTimesStat) :
    (m.havePrevCPU = false →
      sampleCPUPercent m (.ok (t :: rest)) =
        ((0, none), ⟨cpuTimesTotal t, t.idle + t.iowait, true⟩)) ∧
    (m.havePrevCPU = true →
      ((0 < cpuTimesTotal t - m.prevTotal →
        (sampleCPUPercent m (.ok (t :: rest))).1.1 =
          max 0 (min 100
            ((cpuTimesTotal t - m.prevTotal - (t.idle + t.iowait - m.prevIdle)) /
              (cpuTimesTotal t - m.prevTotal) * 100)) ∧
        0 ≤ (sampleCPUPercent m (.ok (t :: rest))).1.1 ∧
        (sampleCPUPercent m (.ok (t :: rest))).1.1 ≤ 100) ∧
      (cpuTimesTotal t - m.prevTotal ≤ 0 →
        (sampleCPUPercent m (.ok (t :: rest))).1.1 = 0) ∧
      (sampleCPUPercent m (.ok (t :: rest))).2 =
        ⟨cpuTimesTotal t, t.idle + t.iowait, true⟩)) := by
  obtain ⟨pT, pI, b⟩ := m
  constructor
  · rintro rfl
    simp [sampleCPUPercent]
  · rintro rfl
    simp only [sampleCPUPercent, Bool.not_true]
    refine ⟨fun hpos => ?_, fun hnp => ?_, ?_⟩
    · rw [if_neg (not_le.mpr hpos)]
      set u : ℚ := (cpuTimesTotal t - pT - (t.idle + t.iowait - pI)) /
        (cpuTimesTotal t - pT) * 100 with hu
      by_cases h1 : u < 0
      · rw [if_pos h1]
        have hmin : min 100 u = u := min_eq_right (by linarith)
        have hmax : max 0 u = 0 := max_eq_left (by linarith)
        simp [hmin, hmax]
      · rw [if_neg h1]
        by_cases h2 : u > 100
        · rw [if_pos h2]
          have hmin : min (100 : ℚ) u = 100 := min_eq_left (by linarith)
          simp [hmin]
        · rw [if_neg h2]
          push_neg at h1 h2
          have hmin : min 100 u = u := min_eq_right h2
          have hmax : max 0 u = u := max_eq_right h1
          simp [hmin, hmax, h1, h2]
    · rw [if_pos hnp]
      rfl
    · by_cases h0 : cpuTimesTotal t - pT ≤ 0
      · rw [if_pos h0]
        rfl
      · rw [if_neg h0]
        split_ifs <;> rfl

/-- Witness for C1: a concrete second sample with `totalDelta = 100`,
`idleDelta = 25` yields 75. -/
theorem sampleCPUPercent_estimator_witness :
    (0 : ℚ) < cpuTimesTotal ⟨50, 25, 20, 0, 5, 0, 0, 0, 0, 0⟩ - 0 ∧
    (sampleCPUPercent ⟨0, 0, true⟩
      (.ok [⟨50, 25, 20, 0, 5, 0, 0, 0, 0, 0⟩])).1.1 = 75 := by
  have h := (sampleCPUPercent_estimator ⟨0, 0, true⟩
    ⟨50, 25, 20, 0, 5, 0, 0, 0, 0, 0⟩ []).2 rfl
  have hpos : (0 : ℚ) < cpuTimesTotal ⟨50, 25, 20, 0, 5, 0, 0, 0, 0, 0⟩ - 0 := by
    norm_num [cpuTimesTotal]
  refine ⟨hpos, ?_⟩
  rw [(h.1 hpos).1]
  norm_num [cpuTimesTotal]

/-! ## C2: history ring invariant -/

/-- Timestamps along the history are non-decreasing. -/
def TimesSorted (l : List HistoryPoint) : Prop :=
  l.Pairwise (fun a b => a.time ≤ b.time)

lemma mem_dropWhile_time_ge (c : ℤ) :
    ∀ (l : List HistoryPoint), TimesSorted l →
      ∀ p ∈ l.dropWhile (fun p => decide (p.time < c)), c ≤ p.time := by
  intro l
  induction l with
  | nil => intro _ p hp; simp [List.dropWhile] at hp
  | cons a t ih =>
    intro hs p hp
    obtain ⟨ha, ht⟩ := List.pairwise_cons.mp hs
    rw [List.dropWhile_cons] at hp
    by_cases h : a.time < c
    · rw [if_pos (by simpa using h)] at hp
      exact ih ht p hp
    · rw [if_neg (by simpa using h)] at hp
      rcases List.mem_cons.mp hp with rfl | hp'
      · exact not_lt.mp h
      · exact (not_lt.mp h).trans (ha p hp')

lemma appendHistoryLocked_inv (h : List HistoryPoint) (snap : ResourcesSnapshot)
    (hsort : TimesSorted h) (hle : ∀ p ∈ h, p.time ≤ snap.updatedAt) :
    TimesSorted (appendHistoryLocked h snap) ∧
    (∀ p ∈ appendHistoryLocked h snap, p.time ≤ snap.updatedAt) ∧
    (∀ p ∈ appendHistoryLocked h snap, snap.updatedAt - historyMaxAgeMs ≤ p.time) ∧
    (appendHistoryLocked h snap).length ≤ historyMaxPoints := by
  have hhp : (mkHistoryPoint snap).time = snap.updatedAt := rfl
  set h1 : List HistoryPoint := h ++ [mkHistoryPoint snap] with hh1
  have hsort1 : TimesSorted h1 := by
    apply List.pairwise_append.mpr
    refine ⟨hsort, List.pairwise_singleton _ _, ?_⟩
    intro p hp q hq
    rcases List.mem_singleton.mp hq with rfl
    rw [hhp]
    exact hle p hp
  have hle1 : ∀ p ∈ h1, p.time ≤ snap.updatedAt := by
    intro p hp
    rcases List.mem_append.mp hp with hp | hp
    · exact hle p hp
    · rcases List.mem_singleton.mp hp with rfl
      exact le_of_eq hhp
  set h2 : List HistoryPoint :=
    h1.dropWhile (fun p => decide (p.time < snap.updatedAt - historyMaxAgeMs)) with hh2
  have hsub2 : h2.Sublist h1 := List.dropWhile_sublist _
  have hge2 : ∀ p ∈ h2, snap.updatedAt - historyMaxAgeMs ≤ p.time :=
    mem_dropWhile_time_ge _ h1 hsort1
  have hsort2 : TimesSorted h2 := List.Pairwise.sublist hsub2 hsort1
  have hle2 : ∀ p ∈ h2, p.time ≤ snap.updatedAt := fun p hp => hle1 p (hsub2.subset hp)
  have hres : appendHistoryLocked h snap =
      if historyMaxPoints < h2.length then h2.drop (h2.length - historyMaxPoints) else h2 := rfl
  rw [hres]
  by_cases hc : historyMaxPoints < h2.length
  · rw [if_pos hc]
    have hsub3 : (h2.drop (h2.length - historyMaxPoints)).Sublist h2 := List.drop_sublist _ _
    refine ⟨List.Pairwise.sublist hsub3 hsort2, fun p hp => hle2 p (hsub3.subset hp),
      fun p hp => hge2 p (hsub3.subset hp), ?_⟩
    rw [List.length_drop]
    omega
  · rw [if_neg hc]
    exact ⟨hsort2, hle2, hge2, by omega⟩

lemma foldl_appendHistory_inv (snaps : List ResourcesSnapshot) :
    ∀ (h : List HistoryPoint),
    TimesSorted h →
    (∀ p ∈ h, ∀ q ∈ h, p.time - historyMaxAgeMs ≤ q.time) →
    h.length ≤ historyMaxPoints →
    (∀ p ∈ h, ∀ s ∈ snaps, p.time ≤ s.updatedAt) →
    List.Pairwise (fun a b => a.updatedAt ≤ b.updatedAt) snaps →
    (TimesSorted (snaps.foldl appendHistoryLocked h) ∧
     (snaps.foldl appendHistoryLocked h).length ≤ historyMaxPoints ∧
     ∀ p ∈ snaps.foldl appendHistoryLocked h,
       ∀ q ∈ snaps.foldl appendHistoryLocked h, p.time - historyMaxAgeMs ≤ q.time) := by
  induction snaps with
  | nil => intro h h1 h2 h3 _ _; exact ⟨h1, h3, h2⟩
  | cons s rest ih =>
    intro h h1 h2 h3 h4 hps
    rw [List.foldl_cons]
    obtain ⟨hps1, hps2⟩ := List.pairwise_cons.mp hps
    have hle : ∀ p ∈ h, p.time ≤ s.updatedAt :=
      fun p hp => h4 p hp s (List.mem_cons_self _ _)
    obtain ⟨i1, i2, i3, i4⟩ := appendHistoryLocked_inv h s h1 hle
    refine ih (appendHistoryLocked h s) i1 ?_ i4 ?_ hps2
    · intro p hp q hq
      have := i2 p hp
      have := i3 q hq
      linarith
    · intro p hp s' hs'
      exact (i2 p hp).trans (hps1 s' hs')

/-- C2: starting from an empty history, for every sequence of appends (one
`appendHistoryLocked` per tick, with non-decreasing snapshot timestamps),
after each append the history holds at most `historyMaxPoints = 2000`
points and every retained point's timestamp is at least any other retained
point's timestamp (in particular the newest one's) minus
`historyMaxAgeMs` (30 minutes).  The embedding `appendHistoryLocked`
performs the age trim first and the count trim second, exactly as the
source does. -/
theorem historyRing_invariant (snaps : List ResourcesSnapshot)
    (hmono : List.Pairwise (fun a b => a.updatedAt ≤ b.updatedAt) snaps) (n : ℕ) :
    ((snaps.take n).foldl appendHistoryLocked []).length ≤ historyMaxPoints ∧
    ∀ p ∈ (snaps.take n).foldl appendHistoryLocked [],
      ∀ q ∈ (snaps.take n).foldl appendHistoryLocked [],
        p.time - historyMaxAgeMs ≤ q.time := by
  have hmono' := List.Pairwise.sublist (List.take_sublist n snaps) hmono
  have h := foldl_appendHistory_inv (snaps.take n) []
    (by simp [TimesSorted]) (by simp) (by simp) (by simp) hmono'
  exact ⟨h.2.1, h.2.2⟩

/-- Witness for C2: two concrete appends one second apart stay within the
bounds. -/
theorem historyRing_invariant_witness :
    (([{ newResourceMonitor.snapshot with updatedAt := 1000 },
       { newResourceMonitor.snapshot with updatedAt := 2000 }].take 2).foldl
        appendHistoryLocked []).length ≤ historyMaxPoints := by
  exact (historyRing_invariant
    [{ newResourceMonitor.snapshot with updatedAt := 1000 },
     { newResourceMonitor.snapshot with updatedAt := 2000 }]
    (by simp) 2).1

/-! ## C6: history presence in `Snapshot` -/

lemma update_snapshot_history (gl : Bool) (inp : TickInput) (m : Monitor) :
    (update gl inp m).snapshot.history = ([] : List HistoryPoint) := rfl

lemma update_history_eq (gl : Bool) (inp : TickInput) (m : Monitor) :
    (update gl inp m).history =
      appendHistoryLocked m.history ((update gl inp m).snapshot) := rfl

lemma update_snapshot_updatedAt (gl : Bool) (inp : TickInput) (m : Monitor) :
    (update gl inp m).snapshot.updatedAt = inp.now := rfl

lemma dropWhile_eq_self_of (pred : HistoryPoint → Bool) (l : List HistoryPoint)
    (hall : ∀ p ∈ l, pred p = false) : l.dropWhile pred = l := by
  cases l with
  | nil => rfl
  | cons a t =>
    rw [List.dropWhile_cons, hall a (List.mem_cons_self _ _)]
    simp

lemma appendHistory_no_trim (h : List HistoryPoint) (snap : ResourcesSnapshot)
    (hcut : ∀ p ∈ h, snap.updatedAt - historyMaxAgeMs ≤ p.time)
    (hlen : h.length + 1 ≤ historyMaxPoints) :
    appendHistoryLocked h snap = h ++ [mkHistoryPoint snap] := by
  have hcut1 : ∀ p ∈ h ++ [mkHistoryPoint snap],
      snap.updatedAt - historyMaxAgeMs ≤ p.time := by
    intro p hp
    rcases List.mem_append.mp hp with hp | hp
    · exact hcut p hp
    · rcases List.mem_singleton.mp hp with rfl
      show snap.updatedAt - historyMaxAgeMs ≤ snap.updatedAt
      norm_num [historyMaxAgeMs]
  have hdrop : (h ++ [mkHistoryPoint snap]).dropWhile
      (fun p => decide (p.time < snap.updatedAt - historyMaxAgeMs)) =
      h ++ [mkHistoryPoint snap] := by
    apply dropWhile_eq_self_of
    intro p hp
    simpa using not_lt.mpr (hcut1 p hp)
  have hres : appendHistoryLocked h snap =
      if historyMaxPoints <
          ((h ++ [mkHistoryPoint snap]).dropWhile
            (fun p => decide (p.time < snap.updatedAt - historyMaxAgeMs))).length then
        ((h ++ [mkHistoryPoint snap]).dropWhile
          (fun p => decide (p.time < snap.updatedAt - historyMaxAgeMs))).drop
          (((h ++ [mkHistoryPoint snap]).dropWhile
            (fun p => decide (p.time < snap.updatedAt - historyMaxAgeMs))).length -
            historyMaxPoints)
      else
        (h ++ [mkHistoryPoint snap]).dropWhile
          (fun p => decide (p.time < snap.updatedAt - historyMaxAgeMs)) := rfl
  rw [hres, hdrop, if_neg]
  rw [List.length_append]
  simp only [List.length_singleton]
  omega

lemma runUpdates_history_len (gl : Bool) :
    ∀ (inps : List TickInput) (m : Monitor),
    List.Pairwise (fun a b => a.now ≤ b.now) inps →
    (∀ x ∈ inps, ∀ y ∈ inps, y.now - x.now ≤ historyMaxAgeMs) →
    (∀ p ∈ m.history, ∀ x ∈ inps, p.time ≤ x.now ∧ x.now - historyMaxAgeMs ≤ p.time) →
    m.history.length + inps.length ≤ historyMaxPoints →
    (runUpdates gl inps m).history.length = m.history.length + inps.length := by
  intro inps
  induction inps with
  | nil => intro m _ _ _ _; simp [runUpdates]
  | cons inp rest ih =>
    intro m hmono hwin hold hlen
    obtain ⟨hmono1, hmono2⟩ := List.pairwise_cons.mp hmono
    have hstep : (update gl inp m).history =
        m.history ++ [mkHistoryPoint (update gl inp m).snapshot] := by
      rw [update_history_eq]
      apply appendHistory_no_trim
      · intro p hp
        rw [update_snapshot_updatedAt]
        exact (hold p hp inp (List.mem_cons_self _ _)).2
      · simp only [List.length_cons, List.length_nil] at hlen
        omega
    have hrun : runUpdates gl (inp :: rest) m = runUpdates gl rest (update gl inp m) := rfl
    rw [hrun, ih (update gl inp m) hmono2
      (fun x hx y hy => hwin x (List.mem_cons_of_mem _ hx) y (List.mem_cons_of_mem _ hy))
      ?_ ?_]
    · rw [hstep]
      simp only [List.length_append, List.length_singleton, List.length_cons,
        List.length_nil] at hlen ⊢
      omega
    · intro p hp x hx
      rw [hstep] at hp
      rcases List.mem_append.mp hp with hp | hp
      · exact hold p hp x (List.mem_cons_of_mem _ hx)
      · rcases List.mem_singleton.mp hp with rfl
        have htime : (mkHistoryPoint (update gl inp m).snapshot).time = inp.now := by
          show (update gl inp m).snapshot.updatedAt = inp.now
          exact update_snapshot_updatedAt gl inp m
        constructor
        · rw [htime]; exact hmono1 x hx
        · rw [htime]
          have := hwin inp (List.mem_cons_self _ _) x (List.mem_cons_of_mem _ hx)
          linarith
    · rw [hstep]
      simp only [List.length_append, List.length_singleton, List.length_cons,
        List.length_nil] at hlen ⊢
      omega

/-- C6: for every reachable engine state, `Snapshot(false)` returns a
snapshot with an empty history; and when the engine has run for `N` ticks
from a fresh monitor (with `N` below the 2000-point cap and all timestamps
within the 30-minute window), `Snapshot(true)` returns a history with
exactly `N` entries. -/
theorem snapshot_history_presence :
    (∀ m, Reachable m → (snapshotAccessor m false).history = []) ∧
    (∀ (gl : Bool) (inps : List TickInput),
      List.Pairwise (fun a b => a.now ≤ b.now) inps →
      (∀ x ∈ inps, ∀ y ∈ inps, y.now - x.now ≤ historyMaxAgeMs) →
      inps.length ≤ historyMaxPoints →
      (snapshotAccessor (runUpdates gl inps newResourceMonitor) true).history.length
        = inps.length) := by
  constructor
  · intro m hm
    induction hm with
    | init => rfl
    | step gl inp m' _ _ => exact update_snapshot_history gl inp m'
  · intro gl inps hmono hwin hlen
    have hacc : (snapshotAccessor (runUpdates gl inps newResourceMonitor) true).history =
        cloneHistory (runUpdates gl inps newResourceMonitor).history := rfl
    rw [hacc, cloneHistory_eq]
    have hrun := runUpdates_history_len gl inps newResourceMonitor hmono hwin
      (by intro p hp; simp [newResourceMonitor] at hp)
      (by simpa [newResourceMonitor] using hlen)
    simpa [newResourceMonitor] using hrun

/-- A neutral tick input for concrete witnesses (all samplers healthy and
empty). -/
def mkTestInput (t : ℤ) : TickInput :=
  { now := t, hostIPRes := ("", none), cpuTimesRes := .ok [],
    cpuStaticRes := (CPUStats.zero, none), cpuDynamicRes := (CPUStats.zero, none),
    memoryRes := (MemoryStats.zero, none), disksRes := (none, none),
    gpusRes := (none, none), procCountRes := .ok 0, topProcRes := ((none, none), none) }

/-- Witness for C6: two ticks one second apart yield exactly two history
entries. -/
theorem snapshot_history_presence_witness :
    (snapshotAccessor (runUpdates true [mkTestInput 1000, mkTestInput 2000]
      newResourceMonitor) true).history.length = 2 := by
  have h := snapshot_history_presence.2 true [mkTestInput 1000, mkTestInput 2000]
    (by simp [mkTestInput])
    (by
      intro x hx y hy
      simp only [List.mem_cons, List.not_mem_nil, or_false] at hx hy
      rcases hx with rfl | rfl <;> rcases hy with rfl | rfl <;>
        norm_num [mkTestInput, historyMaxAgeMs])
    (by norm_num [historyMaxPoints])
  simpa using h

/-! ## C8: engine lifecycle -/

/-- C8: `Start` runs the first sample immediately (with zero ticker events
the engine state is exactly one `update` in, so there is no initial
delay), the ticker interval is the fixed 1000 ms, and once the stop event
is consumed no later event produces any further update — the state, and
hence the last published snapshot read through the accessor, is exactly
the one published before the stop, whatever events follow. -/
theorem engine_lifecycle (gl : Bool) (first : TickInput) (ticks : List TickInput)
    (rest : List EngineEvent) (m : Monitor) :
    startTickerIntervalMs = 1000 ∧
    startEngine gl first [] m = update gl first m ∧
    startEngine gl first (ticks.map EngineEvent.tick ++ EngineEvent.stop :: rest) m =
      runUpdates gl ticks (update gl first m) ∧
    snapshotAccessor
        (startEngine gl first (ticks.map EngineEvent.tick ++ EngineEvent.stop :: rest) m)
        false =
      (runUpdates gl ticks (update gl first m)).snapshot := by
  have key : ∀ (l : List TickInput) (m' : Monitor),
      runLoop gl (l.map EngineEvent.tick ++ EngineEvent.stop :: rest) m' =
        runUpdates gl l m' := by
    intro l
    induction l with
    | nil => intro m'; rfl
    | cons a t ih =>
      intro m'
      simp only [List.map_cons, List.cons_append, runLoop, runUpdates, List.foldl_cons]
      exact ih _
  refine ⟨rfl, rfl, key ticks _, ?_⟩
  show snapshotAccessor
      (runLoop gl (ticks.map EngineEvent.tick ++ EngineEvent.stop :: rest)
        (update gl first m)) false = _
  rw [key ticks (update gl first m)]
  rfl

/-! ## C9: disk selection -/

lemma addMount_mem {x : String} (sel : List String) (mp : String) (hx : x ∈ sel) :
    x ∈ addMount sel mp := by
  unfold addMount
  split_ifs
  · exact hx
  · exact List.mem_append_left _ hx

lemma linuxSelStep_mem {x : String} (sel : List String) (p : PartitionStat)
    (hx : x ∈ sel) : x ∈ linuxSelStep sel p := by
  dsimp only [linuxSelStep]
  split_ifs <;> first | exact hx | exact addMount_mem _ _ hx

lemma foldl_linuxSelStep_mem {x : String} :
    ∀ (parts : List PartitionStat) (sel : List String), x ∈ sel →
      x ∈ parts.foldl linuxSelStep sel := by
  intro parts
  induction parts with
  | nil => intro sel hx; exact hx
  | cons p rest ih =>
    intro sel hx
    rw [List.foldl_cons]
    exact ih _ (linuxSelStep_mem sel p hx)

/-- C9: on Linux the selected mount set always contains the root mount
`"/"`, whatever the partition table holds; and on any platform, when at
least one partition has a non-empty mountpoint, the selection (with its
fallback) is never empty. -/
theorem diskSelection_policy :
    (∀ parts : List PartitionStat, "/" ∈ selectMounts "linux" parts) ∧
    (∀ (goos : String) (parts : List PartitionStat),
      (∃ p ∈ parts, p.mountpoint ≠ "") → selectMounts goos parts ≠ []) := by
  have hlinux : ∀ parts : List PartitionStat, "/" ∈ selectLinuxMounts parts := by
    intro parts
    exact foldl_linuxSelStep_mem parts ["/"] (List.mem_singleton.mpr rfl)
  constructor
  · intro parts
    unfold selectMounts
    rw [if_pos rfl]
    rw [if_neg]
    · exact hlinux parts
    · have := hlinux parts
      intro hlen
      rw [List.length_eq_zero] at hlen
      rw [hlen] at this
      exact (List.not_mem_nil _) this
  · intro goos parts hex
    unfold selectMounts
    by_cases hg1 : goos = "linux"
    · rw [if_pos hg1, if_neg]
      · have := hlinux parts
        intro hnil
        rw [hnil] at this
        exact (List.not_mem_nil _) this
      · have := hlinux parts
        intro hlen
        rw [List.length_eq_zero] at hlen
        rw [hlen] at this
        exact (List.not_mem_nil _) this
    · rw [if_neg hg1]
      by_cases hg2 : goos = "windows"
      · rw [if_pos hg2]
        by_cases hlen : (selectWindowsMounts parts).length = 0
        · rw [if_pos hlen]
          obtain ⟨p, hp, hne⟩ := hex
          have hfind : (parts.find? (fun p => !(p.mountpoint = ""))).isSome := by
            rw [List.find?_isSome]
            exact ⟨p, hp, by simpa using hne⟩
          obtain ⟨q, hq⟩ := Option.isSome_iff_exists.mp hfind
          rw [hq]
          simp
        · rw [if_neg hlen]
          intro hnil
          rw [hnil] at hlen
          exact hlen rfl
      · rw [if_neg hg2]
        rw [if_neg (by norm_num)]
        simp

/-- Witness for C9: a pseudo-only partition table on a platform selecting
nothing still yields a non-empty selection through the fallback. -/
theorem diskSelection_fallback_witness :
    selectMounts "windows" [⟨"", "/data", "ext4"⟩] ≠ [] := by
  apply diskSelection_policy.2 "windows" [⟨"", "/data", "ext4"⟩]
  exact ⟨⟨"", "/data", "ext4"⟩, List.mem_singleton.mpr rfl, by decide⟩

/-! ## C10: preferred host IP -/

/-- C10: when interface enumeration succeeds `preferredHostIP` never
reports an error; with no candidate it returns the empty string and no
error; with candidates it returns the first match in strict priority
order: `192.168.1.0/24`, then `192.168.0.0/16`, then any private IPv4,
then the first candidate encountered. -/
theorem preferredHostIP_priority (ifaces : List NetInterface) :
    ((preferredHostIP (.ok ifaces)).2 = none) ∧
    (candidatesOf ifaces = [] → preferredHostIP (.ok ifaces) = ("", none)) ∧
    (∀ ip, (candidatesOf ifaces).find?
        (fun ip => ip.b0 = 192 && ip.b1 = 168 && ip.b2 = 1) = some ip →
      preferredHostIP (.ok ifaces) = (ipString ip, none)) ∧
    ((candidatesOf ifaces).find?
        (fun ip => ip.b0 = 192 && ip.b1 = 168 && ip.b2 = 1) = none →
      ∀ ip, (candidatesOf ifaces).find? (fun ip => ip.b0 = 192 && ip.b1 = 168) = some ip →
        preferredHostIP (.ok ifaces) = (ipString ip, none)) ∧
    ((candidatesOf ifaces).find?
        (fun ip => ip.b0 = 192 && ip.b1 = 168 && ip.b2 = 1) = none →
      (candidatesOf ifaces).find? (fun ip => ip.b0 = 192 && ip.b1 = 168) = none →
      ∀ ip, (candidatesOf ifaces).find? isPrivateIPv4 = some ip →
        preferredHostIP (.ok ifaces) = (ipString ip, none)) ∧
    ((candidatesOf ifaces).find?
        (fun ip => ip.b0 = 192 && ip.b1 = 168 && ip.b2 = 1) = none →
      (candidatesOf ifaces).find? (fun ip => ip.b0 = 192 && ip.b1 = 168) = none →
      (candidatesOf ifaces).find? isPrivateIPv4 = none →
      ∀ ip rest, candidatesOf ifaces = ip :: rest →
        preferredHostIP (.ok ifaces) = (ipString ip, none)) := by
  refine ⟨?_, ?_, ?_, ?_, ?_, ?_⟩
  · unfold preferredHostIP
    rcases h1 : (candidatesOf ifaces).find?
        (fun ip => ip.b0 = 192 && ip.b1 = 168 && ip.b2 = 1) with _ | ip1
    · rcases h2 : (candidatesOf ifaces).find? (fun ip => ip.b0 = 192 && ip.b1 = 168)
          with _ | ip2
      · rcases h3 : (candidatesOf ifaces).find? isPrivateIPv4 with _ | ip3
        · rcases h4 : candidatesOf ifaces with _ | ⟨ip4, rest⟩
          · simp [h1, h2, h3, h4]
          · rw [h4] at h1 h2 h3
            simp [h1, h2, h3, h4]
        · simp [h1, h2, h3]
      · simp [h1, h2]
    · simp [h1]
  · intro hc
    unfold preferredHostIP
    simp [hc]
  · intro ip h1
    unfold preferredHostIP
    simp [h1]
  · intro h1 ip h2
    unfold preferredHostIP
    simp [h1, h2]
  · intro h1 h2 ip h3
    unfold preferredHostIP
    simp [h1, h2, h3]
  · intro h1 h2 h3 ip rest h4
    unfold preferredHostIP
    rw [h4] at h1 h2 h3
    simp [h1, h2, h3, h4]

/-- Witness for C10: one up, non-loopback interface carrying `10.0.0.5`
resolves through the private-range rule. -/
theorem preferredHostIP_priority_witness :
    preferredHostIP (.ok [⟨true, false, some [some ⟨10, 0, 0, 5⟩]⟩]) =
      ("10.0.0.5", none) := by
  have h := (preferredHostIP_priority [⟨true, false, some [some ⟨10, 0, 0, 5⟩]⟩]).2.2.2.2.1
  have := h (by decide) (by decide) ⟨10, 0, 0, 5⟩ (by decide)
  simpa [ipString] using this

/-! ## C5: GPU merge policy -/

lemma nvidiaIdx_nil (gpus : List GPUStats)
    (hall : ∀ g ∈ gpus, vendorMatchesNvidia g = false) :
    (List.range gpus.length).filter
      (fun i => match gpus.get? i with
        | some g => vendorMatchesNvidia g
        | none => false) = [] := by
  rw [List.filter_eq_nil_iff]
  intro i hi
  rw [List.mem_range] at hi
  rcases List.get?_eq_some.mpr ⟨hi, rfl⟩ with hget
  simp only [hget]
  simpa using hall _ (List.get_mem gpus i hi)

/-- C5: with one vendor-tagged NVIDIA static entry and one dynamic row the
merge returns exactly that entry overlaid with the dynamic
utilization/memory/temperature fields (name filled only if the static one
was blank); with two tagged entries and two rows the pairing is positional
in encounter order; with no vendor-tagged entries each dynamic row
synthesizes one new entry with vendor `"NVIDIA"` — in particular an empty
inventory and one row yield exactly one synthesized entry. -/
theorem gpuMerge_policy :
    (∀ (g : GPUStats) (mm : NvidiaSMIGPU), vendorMatchesNvidia g = true →
      mergeNvidiaSMIMetrics [g] [mm] = [overlayNvidia g mm]) ∧
    (∀ (g1 g2 : GPUStats) (mm1 mm2 : NvidiaSMIGPU),
      vendorMatchesNvidia g1 = true → vendorMatchesNvidia g2 = true →
      mergeNvidiaSMIMetrics [g1, g2] [mm1, mm2] =
        [overlayNvidia g1 mm1, overlayNvidia g2 mm2]) ∧
    (∀ (gpus : List GPUStats) (mm : NvidiaSMIGPU),
      (∀ g ∈ gpus, vendorMatchesNvidia g = false) →
      mergeNvidiaSMIMetrics gpus [mm] = gpus ++ [synthesizedNvidiaEntry 0 mm]) := by
  refine ⟨?_, ?_, ?_⟩
  · intro g mm hg
    unfold mergeNvidiaSMIMetrics
    simp [hg, List.range_succ, overlayNvidia]
  · intro g1 g2 mm1 mm2 hg1 hg2
    unfold mergeNvidiaSMIMetrics
    have henum : [mm1, mm2].enum = [(0, mm1), (1, mm2)] := rfl
    rw [henum]
    simp [hg1, hg2, List.range_succ, overlayNvidia]
  · intro gpus mm hall
    unfold mergeNvidiaSMIMetrics
    rw [nvidiaIdx_nil gpus hall]
    simp [synthesizedNvidiaEntry]

/-- Witness for C5: a concrete static NVIDIA entry and a concrete dynamic
row merge into one overlaid entry. -/
theorem gpuMerge_policy_witness :
    mergeNvidiaSMIMetrics
      [{ index := 0, name := "", vendor := "NVIDIA Corporation", driver := "nvidia",
         utilizationPercent := none, memoryTotalBytes := none,
         memoryUsedBytes := none, temperatureC := none }]
      [{ name := "GeForce RTX 3060", utilPercent := 17, memUsedBytes := 1024,
         memTotalBytes := 4096, tempC := 41 }] =
      [overlayNvidia
        { index := 0, name := "", vendor := "NVIDIA Corporation", driver := "nvidia",
          utilizationPercent := none, memoryTotalBytes := none,
          memoryUsedBytes := none, temperatureC := none }
        { name := "GeForce RTX 3060", utilPercent := 17, memUsedBytes := 1024,
          memTotalBytes := 4096, tempC := 41 }] := by
  apply gpuMerge_policy.1
  decide

/-! ## C3: the TTL cache layer of `update` -/

lemma ttlExpired_none (now ttl : ℤ) : ttlExpired now none ttl = true := rfl

lemma update_hostIP_fields (gl : Bool) (inp : TickInput) (m : Monitor) :
    ((update gl inp m).hostIP, (update gl inp m).hostIPErr,
      (update gl inp m).hostIPUpdatedAt) =
      if m.hostIP = "" ∨ ttlExpired inp.now m.hostIPUpdatedAt hostIPTTL then
        (inp.hostIPRes.1, inp.hostIPRes.2, some inp.now)
      else (m.hostIP, m.hostIPErr, m.hostIPUpdatedAt) := rfl

lemma update_cpuStatic_fields (gl : Bool) (inp : TickInput) (m : Monitor) :
    ((update gl inp m).cpuStatic, (update gl inp m).cpuStaticErr,
      (update gl inp m).cpuStaticUpdatedAt) =
      if m.cpuStaticUpdatedAt.isNone ∨
          ttlExpired inp.now m.cpuStaticUpdatedAt cpuStaticTTL then
        (inp.cpuStaticRes.1, inp.cpuStaticRes.2, some inp.now)
      else (m.cpuStatic, m.cpuStaticErr, m.cpuStaticUpdatedAt) := rfl

lemma update_cpuDynamic_fields (gl : Bool) (inp : TickInput) (m : Monitor) :
    ((update gl inp m).cpuDynamic, (update gl inp m).cpuDynamicErr,
      (update gl inp m).cpuDynamicUpdatedAt) =
      if m.cpuDynamicUpdatedAt.isNone ∨
          ttlExpired inp.now m.cpuDynamicUpdatedAt
            (if gl then cpuDynamicTTLLinux else cpuDynamicTTLOther) then
        (inp.cpuDynamicRes.1, inp.cpuDynamicRes.2, some inp.now)
      else (m.cpuDynamic, m.cpuDynamicErr, m.cpuDynamicUpdatedAt) := rfl

lemma update_disks_fields (gl : Bool) (inp : TickInput) (m : Monitor) :
    ((update gl inp m).disksCache, (update gl inp m).disksErr,
      (update gl inp m).disksUpdatedAt) =
      if m.disksUpdatedAt.isNone ∨ ttlExpired inp.now m.disksUpdatedAt disksSampleTTL then
        ((if inp.disksRes.1.isSome ∨ inp.disksRes.2.isNone then inp.disksRes.1
          else m.disksCache), inp.disksRes.2, some inp.now)
      else (m.disksCache, m.disksErr, m.disksUpdatedAt) := rfl

lemma update_gpus_fields (gl : Bool) (inp : TickInput) (m : Monitor) :
    ((update gl inp m).gpusCache, (update gl inp m).gpusErr,
      (update gl inp m).gpusUpdatedAt) =
      if m.gpusUpdatedAt.isNone ∨ ttlExpired inp.now m.gpusUpdatedAt gpusSampleTTL then
        ((if inp.gpusRes.1.isSome ∨ inp.gpusRes.2.isNone then inp.gpusRes.1
          else m.gpusCache), inp.gpusRes.2, some inp.now)
      else (m.gpusCache, m.gpusErr, m.gpusUpdatedAt) := rfl

lemma not_refresh_of_fresh {now ttl : ℤ} {last : Option ℤ}
    (h : ttlExpired now last ttl = false) :
    ¬(last.isNone = true ∨ ttlExpired now last ttl = true) := by
  rintro (h1 | h2)
  · cases last with
    | none => rw [ttlExpired_none] at h; exact absurd h (by simp)
    | some t => simp at h1
  · rw [h] at h2
    simp at h2

/-- A tick whose host-IP sampler fails, at `now = 40000`. -/
def failingHostIPTick : TickInput :=
  { mkTestInput 40000 with hostIPRes := ("", some "interface enumeration failed") }

/-- A monitor holding a good cached host IP whose TTL has elapsed by
`now = 40000`. -/
def goodHostIPMonitor : Monitor :=
  { newResourceMonitor with hostIP := "192.168.1.7", hostIPUpdatedAt := some 0 }

/-- A tick whose host-IP sampler now succeeds, at `now = 40000`. -/
def healthyHostIPTick : TickInput :=
  { mkTestInput 40000 with hostIPRes := ("10.0.0.9", none) }

/-- A monitor with an empty cached host IP refreshed only 1 s ago. -/
def emptyHostIPMonitor : Monitor :=
  { newResourceMonitor with hostIP := "", hostIPUpdatedAt := some 39000 }

/-- C3 counterexample: the claimed TTL contract fails for the host-IP
family on two counts.  (a) With the good cached IP `192.168.1.7` whose TTL
elapsed and a failing sampler, the cache is overwritten with the sampler's
empty result — the last good value is not kept.  (b) With an empty cached
IP refreshed only 1 s ago (within the 30 s TTL) the sampler is re-invoked
anyway and its result replaces the cached value, so the update does not
return the cached value unchanged. -/
theorem ttlCache_contract_counterexample :
    ((update true failingHostIPTick goodHostIPMonitor).hostIP = "" ∧
     goodHostIPMonitor.hostIP = "192.168.1.7" ∧
     failingHostIPTick.hostIPRes.2.isSome = true) ∧
    (ttlExpired 40000 (some 39000) hostIPTTL = false ∧
     emptyHostIPMonitor.hostIPUpdatedAt = some 39000 ∧
     healthyHostIPTick.now = 40000 ∧
     emptyHostIPMonitor.hostIP = "" ∧
     (update true healthyHostIPTick emptyHostIPMonitor).hostIP = "10.0.0.9") := by
  refine ⟨⟨?_, rfl, rfl⟩, ?_, rfl, rfl, rfl, ?_⟩
  · rfl
  · decide
  · rfl

/-- C3 amended: the per-family TTL contract as the code implements it.
For the CPU-static, CPU-dynamic (platform-dependent TTL), disk and GPU
families: within TTL the cached value, cached error and timestamp are
returned unchanged; once expired the sampler result and error are stored
with the fresh timestamp, except that the disk/GPU families keep the
previously cached slice when the sampler failed returning a nil slice.
The host-IP family refreshes whenever the cached string is empty — even
within TTL — and on refresh the sampler's value and error replace the
cache unconditionally, so a failed re-sample discards the last good IP.
The assembled snapshot always uses the current (fresh-or-cached)
values. -/
theorem ttlCache_contract_amended (gl : Bool) (inp : TickInput) (m : Monitor) :
    (m.hostIP ≠ "" → ttlExpired inp.now m.hostIPUpdatedAt hostIPTTL = false →
      (update gl inp m).hostIP = m.hostIP ∧
      (update gl inp m).hostIPErr = m.hostIPErr ∧
      (update gl inp m).hostIPUpdatedAt = m.hostIPUpdatedAt) ∧
    (m.hostIP = "" ∨ ttlExpired inp.now m.hostIPUpdatedAt hostIPTTL = true →
      (update gl inp m).hostIP = inp.hostIPRes.1 ∧
      (update gl inp m).hostIPErr = inp.hostIPRes.2 ∧
      (update gl inp m).hostIPUpdatedAt = some inp.now) ∧
    (ttlExpired inp.now m.cpuStaticUpdatedAt cpuStaticTTL = false →
      (update gl inp m).cpuStatic = m.cpuStatic ∧
      (update gl inp m).cpuStaticErr = m.cpuStaticErr ∧
      (update gl inp m).cpuStaticUpdatedAt = m.cpuStaticUpdatedAt) ∧
    (ttlExpired inp.now m.cpuStaticUpdatedAt cpuStaticTTL = true →
      (update gl inp m).cpuStatic = inp.cpuStaticRes.1 ∧
      (update gl inp m).cpuStaticErr = inp.cpuStaticRes.2 ∧
      (update gl inp m).cpuStaticUpdatedAt = some inp.now) ∧
    (ttlExpired inp.now m.cpuDynamicUpdatedAt
        (if gl then cpuDynamicTTLLinux else cpuDynamicTTLOther) = false →
      (update gl inp m).cpuDynamic = m.cpuDynamic ∧
      (update gl inp m).cpuDynamicErr = m.cpuDynamicErr ∧
      (update gl inp m).cpuDynamicUpdatedAt = m.cpuDynamicUpdatedAt) ∧
    (ttlExpired inp.now m.cpuDynamicUpdatedAt
        (if gl then cpuDynamicTTLLinux else cpuDynamicTTLOther) = true →
      (update gl inp m).cpuDynamic = inp.cpuDynamicRes.1 ∧
      (update gl inp m).cpuDynamicErr = inp.cpuDynamicRes.2 ∧
      (update gl inp m).cpuDynamicUpdatedAt = some inp.now) ∧
    (ttlExpired inp.now m.disksUpdatedAt disksSampleTTL = false →
      (update gl inp m).disksCache = m.disksCache ∧
      (update gl inp m).disksErr = m.disksErr ∧
      (update gl inp m).disksUpdatedAt = m.disksUpdatedAt) ∧
    (ttlExpired inp.now m.disksUpdatedAt disksSampleTTL = true →
      (update gl inp m).disksErr = inp.disksRes.2 ∧
      (update gl inp m).disksUpdatedAt = some inp.now ∧
      (∀ d, inp.disksRes.1 = some d → (update gl inp m).disksCache = some d) ∧
      (inp.disksRes.1 = none → inp.disksRes.2.isSome = true →
        (update gl inp m).disksCache = m.disksCache) ∧
      (inp.disksRes.1 = none → inp.disksRes.2 = none →
        (update gl inp m).disksCache = none)) ∧
    (ttlExpired inp.now m.gpusUpdatedAt gpusSampleTTL = false →
      (update gl inp m).gpusCache = m.gpusCache ∧
      (update gl inp m).gpusErr = m.gpusErr ∧
      (update gl inp m).gpusUpdatedAt = m.gpusUpdatedAt) ∧
    (ttlExpired inp.now m.gpusUpdatedAt gpusSampleTTL = true →
      (update gl inp m).gpusErr = inp.gpusRes.2 ∧
      (update gl inp m).gpusUpdatedAt = some inp.now ∧
      (∀ g, inp.gpusRes.1 = some g → (update gl inp m).gpusCache = some g) ∧
      (inp.gpusRes.1 = none → inp.gpusRes.2.isSome = true →
        (update gl inp m).gpusCache = m.gpusCache) ∧
      (inp.gpusRes.1 = none → inp.gpusRes.2 = none →
        (update gl inp m).gpusCache = none)) ∧
    (update gl inp m).snapshot.hostIP = (update gl inp m).hostIP ∧
    (update gl inp m).snapshot.disks = (update gl inp m).disksCache ∧
    (update gl inp m).snapshot.gpus = (update gl inp m).gpusCache ∧
    (update gl inp m).snapshot.cpu.model = (update gl inp m).cpuStatic.model ∧
    (update gl inp m).snapshot.cpu.currentMHz = (update gl inp m).cpuDynamic.currentMHz := by
  refine ⟨?_, ?_, ?_, ?_, ?_, ?_, ?_, ?_, ?_, ?_, rfl, rfl, rfl, rfl, rfl⟩
  · intro hne hfr
    have h := update_hostIP_fields gl inp m
    rw [if_neg (by rintro (h1 | h2); exact hne h1; rw [hfr] at h2; simp at h2)] at h
    simpa [Prod.ext_iff] using h
  · intro hcond
    have h := update_hostIP_fields gl inp m
    rw [if_pos hcond] at h
    simpa [Prod.ext_iff] using h
  · intro hfr
    have h := update_cpuStatic_fields gl inp m
    rw [if_neg (not_refresh_of_fresh hfr)] at h
    simpa [Prod.ext_iff] using h
  · intro hex
    have h := update_cpuStatic_fields gl inp m
    rw [if_pos (Or.inr hex)] at h
    simpa [Prod.ext_iff] using h
  · intro hfr
    have h := update_cpuDynamic_fields gl inp m
    rw [if_neg (not_refresh_of_fresh hfr)] at h
    simpa [Prod.ext_iff] using h
  · intro hex
    have h := update_cpuDynamic_fields gl inp m
    rw [if_pos (Or.inr hex)] at h
    simpa [Prod.ext_iff] using h
  · intro hfr
    have h := update_disks_fields gl inp m
    rw [if_neg (not_refresh_of_fresh hfr)] at h
    simpa [Prod.ext_iff] using h
  · intro hex
    have h := update_disks_fields gl inp m
    rw [if_pos (Or.inr hex)] at h
    simp only [Prod.ext_iff] at h
    obtain ⟨h1, h2, h3⟩ := h
    refine ⟨h2, h3, ?_, ?_, ?_⟩
    · intro d hd
      rw [h1, if_pos (Or.inl (by simp [hd])), hd]
    · intro hn he
      rw [h1, if_neg]
      rintro (h4 | h4)
      · rw [hn] at h4; simp at h4
      · rw [Option.isNone_iff_eq_none] at h4
        rw [h4] at he; simp at he
    · intro hn he
      rw [h1, if_pos (Or.inr (by rw [he]; rfl)), hn]
  · intro hfr
    have h := update_gpus_fields gl inp m
    rw [if_neg (not_refresh_of_fresh hfr)] at h
    simpa [Prod.ext_iff] using h
  · intro hex
    have h := update_gpus_fields gl inp m
    rw [if_pos (Or.inr hex)] at h
    simp only [Prod.ext_iff] at h
    obtain ⟨h1, h2, h3⟩ := h
    refine ⟨h2, h3, ?_, ?_, ?_⟩
    · intro g hg
      rw [h1, if_pos (Or.inl (by simp [hg])), hg]
    · intro hn he
      rw [h1, if_neg]
      rintro (h4 | h4)
      · rw [hn] at h4; simp at h4
      · rw [Option.isNone_iff_eq_none] at h4
        rw [h4] at he; simp at he
    · intro hn he
      rw [h1, if_pos (Or.inr (by rw [he]; rfl)), hn]

/-- Witness for the amended C3: on a fresh monitor every timestamp is the
zero time, so the first tick stores each sampler result. -/
theorem ttlCache_contract_amended_witness :
    (update true (mkTestInput 0) newResourceMonitor).cpuStatic
        = (mkTestInput 0).cpuStaticRes.1 ∧
    (update true (mkTestInput 0) newResourceMonitor).cpuStaticUpdatedAt = some 0 := by
  have h := (ttlCache_contract_amended true (mkTestInput 0) newResourceMonitor).2.2.2.1
    (by rfl)
  exact ⟨h.1, by rw [h.2.2]; rfl⟩

/-! ## C4: error-record exactness and failure isolation -/

lemma str_ne_empty_of_data_ne (s : String) (h : s.data ≠ []) : s ≠ "" := by
  intro he
  subst he
  exact h rfl

lemma str_append_ne_left (a b : String) (ha : a ≠ "") : a ++ b ≠ "" := by
  apply str_ne_empty_of_data_ne
  rw [String.data_append]
  intro h
  rcases List.append_eq_nil.mp h with ⟨h1, _⟩
  apply ha
  cases a
  simp at h1
  subst h1
  rfl

lemma mem_dropWhile_char {c : Char} (p : Char → Bool) (hc : p c = false) :
    ∀ (l : List Char), c ∈ l → c ∈ l.dropWhile p := by
  intro l
  induction l with
  | nil => intro h; simp at h
  | cons a t ih =>
    intro h
    rw [List.dropWhile_cons]
    by_cases hp : p a = true
    · rw [if_pos hp]
      rcases List.mem_cons.mp h with rfl | h'
      · rw [hc] at hp; simp at hp
      · exact ih h'
    · rw [if_neg hp]
      exact h

lemma trimSpace_ne_empty {s : String} {c : Char} (hc : c.isWhitespace = false)
    (hm : c ∈ s.data) : trimSpace s ≠ "" := by
  apply str_ne_empty_of_data_ne
  show ((s.data.dropWhile Char.isWhitespace).reverse.dropWhile Char.isWhitespace).reverse ≠ []
  intro h
  rw [List.reverse_eq_nil_iff] at h
  have h1 : c ∈ s.data.dropWhile Char.isWhitespace := mem_dropWhile_char _ hc _ hm
  have h2 : c ∈ (s.data.dropWhile Char.isWhitespace).reverse := List.mem_reverse.mpr h1
  have h3 := mem_dropWhile_char _ hc _ h2
  rw [h] at h3
  simp at h3

lemma trimSpace_join2_ne (base x : String) : trimSpace (goJoin "; " [base, x]) ≠ "" := by
  apply trimSpace_ne_empty (c := ';') (by decide)
  have hx : goJoin "; " [base, x] = base ++ "; " ++ x := rfl
  rw [hx, String.data_append, String.data_append]
  apply List.mem_append_left
  apply List.mem_append_right
  decide

lemma optErrStr_ne_iff (E : Option String) (h : ∀ e, E = some e → e ≠ "") :
    optErrStr E ≠ "" ↔ E.isSome = true := by
  cases E with
  | none => simp [optErrStr]
  | some e => simp [optErrStr, h e rfl]

lemma cpuErrString_ne_iff (a b c : Option String)
    (ha : ∀ e, a = some e → e ≠ "") (hb : ∀ e, b = some e → e ≠ "")
    (hc : ∀ e, c = some e → e ≠ "") :
    cpuErrString a b c ≠ "" ↔
      (a.isSome = true ∨ b.isSome = true ∨ c.isSome = true) := by
  rcases a with _ | ea <;> rcases b with _ | eb <;> rcases c with _ | ec
  · simp [cpuErrString]
  · have h1 : cpuErrString none none (some ec) = ec := rfl
    rw [h1]; simp [hc ec rfl]
  · have h1 : cpuErrString none (some eb) none = eb := rfl
    rw [h1]; simp [hb eb rfl]
  · have h1 : cpuErrString none (some eb) (some ec) = eb ++ "; " ++ ec := rfl
    rw [h1]; simp [str_append_ne_left _ _ (str_append_ne_left _ _ (hb eb rfl))]
  · have h1 : cpuErrString (some ea) none none = ea := rfl
    rw [h1]; simp [ha ea rfl]
  · have h1 : cpuErrString (some ea) none (some ec) = ea ++ "; " ++ ec := rfl
    rw [h1]; simp [str_append_ne_left _ _ (str_append_ne_left _ _ (ha ea rfl))]
  · have h1 : cpuErrString (some ea) (some eb) none = ea ++ "; " ++ eb := rfl
    rw [h1]; simp [str_append_ne_left _ _ (str_append_ne_left _ _ (ha ea rfl))]
  · have h1 : cpuErrString (some ea) (some eb) (some ec) =
        ea ++ "; " ++ (eb ++ "; " ++ ec) := rfl
    rw [h1]; simp [str_append_ne_left _ _ (str_append_ne_left _ _ (ha ea rfl))]

lemma update_errors_memory (gl : Bool) (inp : TickInput) (m : Monitor) :
    (update gl inp m).snapshot.errors.memory = optErrStr inp.memoryRes.2 := rfl

lemma update_errors_hostIP (gl : Bool) (inp : TickInput) (m : Monitor) :
    (update gl inp m).snapshot.errors.hostIP =
      optErrStr ((update gl inp m).hostIPErr) := rfl

lemma update_errors_disks (gl : Bool) (inp : TickInput) (m : Monitor) :
    (update gl inp m).snapshot.errors.disks =
      optErrStr ((update gl inp m).disksErr) := rfl

lemma update_errors_gpus (gl : Bool) (inp : TickInput) (m : Monitor) :
    (update gl inp m).snapshot.errors.gpus =
      optErrStr ((update gl inp m).gpusErr) := rfl

lemma update_errors_cpu (gl : Bool) (inp : TickInput) (m : Monitor) :
    (update gl inp m).snapshot.errors.cpu =
      cpuErrWithTop (cpuErrWithProc (cpuErrString
        (sampleCPUPercent ⟨m.prevTotal, m.prevIdle, m.havePrevCPU⟩ inp.cpuTimesRes).1.2
        (update gl inp m).cpuStaticErr (update gl inp m).cpuDynamicErr)
        inp.procCountRes) inp.topProcRes.2 := rfl

lemma update_hostIPErr_cases (gl : Bool) (inp : TickInput) (m : Monitor) :
    (update gl inp m).hostIPErr = m.hostIPErr ∨
      (update gl inp m).hostIPErr = inp.hostIPRes.2 := by
  have h := update_hostIP_fields gl inp m
  by_cases hc : m.hostIP = "" ∨ ttlExpired inp.now m.hostIPUpdatedAt hostIPTTL = true
  · right; rw [if_pos hc] at h; simp [Prod.ext_iff] at h; exact h.2.1
  · left; rw [if_neg hc] at h; simp [Prod.ext_iff] at h; exact h.2.1

lemma update_cpuStaticErr_cases (gl : Bool) (inp : TickInput) (m : Monitor) :
    (update gl inp m).cpuStaticErr = m.cpuStaticErr ∨
      (update gl inp m).cpuStaticErr = inp.cpuStaticRes.2 := by
  have h := update_cpuStatic_fields gl inp m
  by_cases hc : m.cpuStaticUpdatedAt.isNone = true ∨
      ttlExpired inp.now m.cpuStaticUpdatedAt cpuStaticTTL = true
  · right; rw [if_pos hc] at h; simp [Prod.ext_iff] at h; exact h.2.1
  · left; rw [if_neg hc] at h; simp [Prod.ext_iff] at h; exact h.2.1

lemma update_cpuDynamicErr_cases (gl : Bool) (inp : TickInput) (m : Monitor) :
    (update gl inp m).cpuDynamicErr = m.cpuDynamicErr ∨
      (update gl inp m).cpuDynamicErr = inp.cpuDynamicRes.2 := by
  have h := update_cpuDynamic_fields gl inp m
  by_cases hc : m.cpuDynamicUpdatedAt.isNone = true ∨
      ttlExpired inp.now m.cpuDynamicUpdatedAt
        (if gl then cpuDynamicTTLLinux else cpuDynamicTTLOther) = true
  · right; rw [if_pos hc] at h; simp [Prod.ext_iff] at h; exact h.2.1
  · left; rw [if_neg hc] at h; simp [Prod.ext_iff] at h; exact h.2.1

lemma update_disksErr_cases (gl : Bool) (inp : TickInput) (m : Monitor) :
    (update gl inp m).disksErr = m.disksErr ∨
      (update gl inp m).disksErr = inp.disksRes.2 := by
  have h := update_disks_fields gl inp m
  by_cases hc : m.disksUpdatedAt.isNone = true ∨
      ttlExpired inp.now m.disksUpdatedAt disksSampleTTL = true
  · right; rw [if_pos hc] at h; simp [Prod.ext_iff] at h; exact h.2.1
  · left; rw [if_neg hc] at h; simp [Prod.ext_iff] at h; exact h.2.1

lemma update_gpusErr_cases (gl : Bool) (inp : TickInput) (m : Monitor) :
    (update gl inp m).gpusErr = m.gpusErr ∨
      (update gl inp m).gpusErr = inp.gpusRes.2 := by
  have h := update_gpus_fields gl inp m
  by_cases hc : m.gpusUpdatedAt.isNone = true ∨
      ttlExpired inp.now m.gpusUpdatedAt gpusSampleTTL = true
  · right; rw [if_pos hc] at h; simp [Prod.ext_iff] at h; exact h.2.1
  · left; rw [if_neg hc] at h; simp [Prod.ext_iff] at h; exact h.2.1

lemma sampleCPUPercent_err_cases (st : CPUPrevState)
    (tr : Except String (List CPUTimesStat)) :
    (sampleCPUPercent st tr).1.2 = none ∨
      ∃ e, tr = .error e ∧ (sampleCPUPercent st tr).1.2 = some e := by
  rcases tr with e | l
  · right; exact ⟨e, rfl, rfl⟩
  · left
    rcases l with _ | ⟨t, rest⟩
    · rfl
    · simp only [sampleCPUPercent]
      split_ifs <;> rfl

/-- All error messages a tick can surface are non-empty (Go errors never
render to the empty string in this program). -/
def MsgsNonEmpty (inp : TickInput) (m : Monitor) : Prop :=
  (∀ e, inp.hostIPRes.2 = some e → e ≠ "") ∧
  (∀ e, inp.cpuTimesRes = .error e → e ≠ "") ∧
  (∀ e, inp.cpuStaticRes.2 = some e → e ≠ "") ∧
  (∀ e, inp.cpuDynamicRes.2 = some e → e ≠ "") ∧
  (∀ e, inp.memoryRes.2 = some e → e ≠ "") ∧
  (∀ e, inp.disksRes.2 = some e → e ≠ "") ∧
  (∀ e, inp.gpusRes.2 = some e → e ≠ "") ∧
  (∀ e, m.hostIPErr = some e → e ≠ "") ∧
  (∀ e, m.cpuStaticErr = some e → e ≠ "") ∧
  (∀ e, m.cpuDynamicErr = some e → e ≠ "") ∧
  (∀ e, m.disksErr = some e → e ≠ "") ∧
  (∀ e, m.gpusErr = some e → e ≠ "")

/-- A tick whose process-count sampler fails while every CPU sampler
succeeds. -/
def procFailTick : TickInput := { mkTestInput 0 with procCountRes := .error "boom" }

/-- C4 counterexample: a failing process-count sampler makes
`errors.cpu` non-empty on a tick where the CPU-percent, CPU-static and
CPU-dynamic samplers all succeeded, so a family's error field being
non-empty does not imply that family's sampling failed. -/
theorem errorRecord_counterexample :
    (update true procFailTick newResourceMonitor).snapshot.errors.cpu ≠ "" ∧
    (sampleCPUPercent ⟨newResourceMonitor.prevTotal, newResourceMonitor.prevIdle,
      newResourceMonitor.havePrevCPU⟩ procFailTick.cpuTimesRes).1.2 = none ∧
    (update true procFailTick newResourceMonitor).cpuStaticErr = none ∧
    (update true procFailTick newResourceMonitor).cpuDynamicErr = none := by
  refine ⟨?_, rfl, rfl, rfl⟩
  decide

/-- C4 amended: per-family failure isolation holds — the snapshot's CPU,
memory, host-IP and process fields (and their error strings) are
unaffected by whatever the disk and GPU samplers return — and the error
record is exact for the memory, disk, GPU and host-IP fields (non-empty
iff the family's most recent sampling failed); the CPU error field is
non-empty iff the CPU-percent sampler, the cached CPU-static or
CPU-dynamic sampling, the process-count sampler, or the top-process scan
failed — process-census errors are folded into `errors.cpu`. -/
theorem errorRecord_amended (gl : Bool) (inp : TickInput) (m : Monitor)
    (hmsg : MsgsNonEmpty inp m) :
    (∀ (d : Option (List DiskStats) × Option String)
       (g : Option (List GPUStats) × Option String),
      (update gl { inp with disksRes := d, gpusRes := g } m).snapshot.cpu =
        (update gl inp m).snapshot.cpu ∧
      (update gl { inp with disksRes := d, gpusRes := g } m).snapshot.memory =
        (update gl inp m).snapshot.memory ∧
      (update gl { inp with disksRes := d, gpusRes := g } m).snapshot.hostIP =
        (update gl inp m).snapshot.hostIP ∧
      (update gl { inp with disksRes := d, gpusRes := g } m).snapshot.processes =
        (update gl inp m).snapshot.processes ∧
      (update gl { inp with disksRes := d, gpusRes := g } m).snapshot.errors.cpu =
        (update gl inp m).snapshot.errors.cpu ∧
      (update gl { inp with disksRes := d, gpusRes := g } m).snapshot.errors.memory =
        (update gl inp m).snapshot.errors.memory ∧
      (update gl { inp with disksRes := d, gpusRes := g } m).snapshot.errors.hostIP =
        (update gl inp m).snapshot.errors.hostIP) ∧
    ((update gl inp m).snapshot.errors.hostIP ≠ "" ↔
      (update gl inp m).hostIPErr.isSome = true) ∧
    ((update gl inp m).snapshot.errors.memory ≠ "" ↔
      inp.memoryRes.2.isSome = true) ∧
    ((update gl inp m).snapshot.errors.disks ≠ "" ↔
      (update gl inp m).disksErr.isSome = true) ∧
    ((update gl inp m).snapshot.errors.gpus ≠ "" ↔
      (update gl inp m).gpusErr.isSome = true) ∧
    ((update gl inp m).snapshot.errors.cpu ≠ "" ↔
      ((sampleCPUPercent ⟨m.prevTotal, m.prevIdle, m.havePrevCPU⟩
          inp.cpuTimesRes).1.2.isSome = true ∨
       (update gl inp m).cpuStaticErr.isSome = true ∨
       (update gl inp m).cpuDynamicErr.isSome = true ∨
       (∃ e, inp.procCountRes = .error e) ∨
       inp.topProcRes.2.isSome = true)) := by
  obtain ⟨h1, h2, h3, h4, h5, h6, h7, h8, h9, h10, h11, h12⟩ := hmsg
  have hcpA : ∀ e, (sampleCPUPercent ⟨m.prevTotal, m.prevIdle, m.havePrevCPU⟩
      inp.cpuTimesRes).1.2 = some e → e ≠ "" := by
    intro e he
    rcases sampleCPUPercent_err_cases ⟨m.prevTotal, m.prevIdle, m.havePrevCPU⟩
        inp.cpuTimesRes with hc | ⟨e', he', hc⟩
    · rw [hc] at he; simp at he
    · rw [hc] at he
      have heq := Option.some.inj he
      subst heq
      exact h2 _ he'
  have hcpB : ∀ e, (update gl inp m).cpuStaticErr = some e → e ≠ "" := by
    intro e he
    rcases update_cpuStaticErr_cases gl inp m with hc | hc <;> rw [hc] at he
    · exact h9 e he
    · exact h3 e he
  have hcpC : ∀ e, (update gl inp m).cpuDynamicErr = some e → e ≠ "" := by
    intro e he
    rcases update_cpuDynamicErr_cases gl inp m with hc | hc <;> rw [hc] at he
    · exact h10 e he
    · exact h4 e he
  refine ⟨?_, ?_, ?_, ?_, ?_, ?_⟩
  · intro d g
    exact ⟨rfl, rfl, rfl, rfl, rfl, rfl, rfl⟩
  · rw [update_errors_hostIP]
    apply optErrStr_ne_iff
    intro e he
    rcases update_hostIPErr_cases gl inp m with hc | hc <;> rw [hc] at he
    · exact h8 e he
    · exact h1 e he
  · rw [update_errors_memory]
    exact optErrStr_ne_iff _ h5
  · rw [update_errors_disks]
    apply optErrStr_ne_iff
    intro e he
    rcases update_disksErr_cases gl inp m with hc | hc <;> rw [hc] at he
    · exact h11 e he
    · exact h6 e he
  · rw [update_errors_gpus]
    apply optErrStr_ne_iff
    intro e he
    rcases update_gpusErr_cases gl inp m with hc | hc <;> rw [hc] at he
    · exact h12 e he
    · exact h7 e he
  · rw [update_errors_cpu]
    rcases htop : inp.topProcRes.2 with _ | e
    · show cpuErrWithProc _ inp.procCountRes ≠ "" ↔ _
      rcases hproc : inp.procCountRes with e' | n
      · show trimSpace (goJoin "; " [_, "processes: " ++ e']) ≠ "" ↔ _
        constructor
        · intro _
          exact Or.inr (Or.inr (Or.inr (Or.inl ⟨e', rfl⟩)))
        · intro _
          exact trimSpace_join2_ne _ _
      · show cpuErrString _ _ _ ≠ "" ↔ _
        rw [cpuErrString_ne_iff _ _ _ hcpA hcpB hcpC]
        simp [hproc, htop]
    · show trimSpace (goJoin "; " [_, "top processes: " ++ e]) ≠ "" ↔ _
      constructor
      · intro _
        right; right; right; right
        simp [htop]
      · intro _
        exact trimSpace_join2_ne _ _

/-- Witness for the amended C4: on the concrete tick whose process-count
sampler fails, the theorem yields a non-empty `errors.cpu`. -/
theorem errorRecord_amended_witness :
    (update true procFailTick newResourceMonitor).snapshot.errors.cpu ≠ "" ∧
    (update true procFailTick newResourceMonitor).snapshot.errors.memory = "" := by
  have h := errorRecord_amended true procFailTick newResourceMonitor
    (by
      refine ⟨?_, ?_, ?_, ?_, ?_, ?_, ?_, ?_, ?_, ?_, ?_, ?_⟩ <;>
        intro e he <;>
        simp [procFailTick, mkTestInput, newResourceMonitor] at he)
  constructor
  · exact h.2.2.2.2.2.mpr (Or.inr (Or.inr (Or.inr (Or.inl ⟨"boom", rfl⟩))))
  · have hm := h.2.2.1
    by_contra hne
    have := hm.mp hne
    simp [procFailTick, mkTestInput] at this

/-! ## C7: the history deep copy never aliases engine state -/

lemma allocMap_store_lt (h : MapHeap) (v : List (String × ℚ)) (a : ℕ)
    (ha : a < h.next) : (allocMap h v).1.store a = h.store a := by
  show (if a = h.next then v else h.store a) = h.store a
  rw [if_neg (by omega)]

lemma cloneHH_spec : ∀ (src : List HPoint) (h : MapHeap),
    (∀ p ∈ src, ∀ a, p.disks = some a → a < h.next) →
    (h.next ≤ (cloneHistoryHeap h src).1.next) ∧
    (∀ a, a < h.next → (cloneHistoryHeap h src).1.store a = h.store a) ∧
    (∀ q ∈ (cloneHistoryHeap h src).2, ∀ b, q.disks = some b →
        h.next ≤ b ∧ b < (cloneHistoryHeap h src).1.next) ∧
    ((cloneHistoryHeap h src).2.length = src.length) ∧
    (∀ i (hi : i < src.length) (hi' : i < (cloneHistoryHeap h src).2.length),
       ((cloneHistoryHeap h src).2.get ⟨i, hi'⟩).time = (src.get ⟨i, hi⟩).time ∧
       ((cloneHistoryHeap h src).2.get ⟨i, hi'⟩).cpu = (src.get ⟨i, hi⟩).cpu ∧
       ((cloneHistoryHeap h src).2.get ⟨i, hi'⟩).mem = (src.get ⟨i, hi⟩).mem ∧
       (((cloneHistoryHeap h src).2.get ⟨i, hi'⟩).disks.isSome ↔
          (src.get ⟨i, hi⟩).disks.isSome) ∧
       (∀ a b, (src.get ⟨i, hi⟩).disks = some a →
          ((cloneHistoryHeap h src).2.get ⟨i, hi'⟩).disks = some b →
          (cloneHistoryHeap h src).1.store b = h.store a)) := by
  intro src
  induction src with
  | nil =>
    intro h _
    refine ⟨le_refl _, fun a _ => rfl, ?_, rfl, ?_⟩
    · intro q hq
      simp [cloneHistoryHeap] at hq
    · intro i hi
      simp at hi
  | cons p rest ih =>
    intro h hval
    rcases hd : p.disks with _ | a
    · have hcl : cloneHistoryHeap h (p :: rest) =
          ((cloneHistoryHeap h rest).1, p :: (cloneHistoryHeap h rest).2) := by
        simp [cloneHistoryHeap, hd]
      have hvr : ∀ q ∈ rest, ∀ a, q.disks = some a → a < h.next :=
        fun q hq a ha => hval q (List.mem_cons_of_mem _ hq) a ha
      obtain ⟨i1, i2, i3, i4, i5⟩ := ih h hvr
      rw [hcl]
      refine ⟨i1, i2, ?_, by simpa using i4, ?_⟩
      · intro q hq b hb
        rcases List.mem_cons.mp hq with rfl | hq'
        · rw [hd] at hb; simp at hb
        · exact i3 q hq' b hb
      · intro i hi hi'
        cases i with
        | zero =>
          refine ⟨rfl, rfl, rfl, by simp, ?_⟩
          intro a b ha hb
          simp only [List.get] at ha
          rw [hd] at ha
          simp at ha
        | succ j =>
          have hj : j < rest.length := by simpa using hi
          have hj' : j < (cloneHistoryHeap h rest).2.length := by simpa using hi'
          simpa using i5 j hj hj'
    · have hcl : cloneHistoryHeap h (p :: rest) =
          ((cloneHistoryHeap (allocMap h (h.store a)).1 rest).1,
            { p with disks := some (allocMap h (h.store a)).2 } ::
              (cloneHistoryHeap (allocMap h (h.store a)).1 rest).2) := by
        simp [cloneHistoryHeap, hd]
      have hnext1 : (allocMap h (h.store a)).1.next = h.next + 1 := rfl
      have hvr : ∀ q ∈ rest, ∀ a', q.disks = some a' →
          a' < (allocMap h (h.store a)).1.next := by
        intro q hq a' ha'
        rw [hnext1]
        exact Nat.lt_succ_of_lt (hval q (List.mem_cons_of_mem _ hq) a' ha')
      obtain ⟨i1, i2, i3, i4, i5⟩ := ih (allocMap h (h.store a)).1 hvr
      have hstore1 : ∀ x, x < h.next →
          (allocMap h (h.store a)).1.store x = h.store x := by
        intro x hx
        show (if x = h.next then h.store a else h.store x) = h.store x
        rw [if_neg (by omega)]
      rw [hcl]
      dsimp only
      refine ⟨?_, ?_, ?_, by simpa using i4, ?_⟩
      · rw [hnext1] at i1
        omega
      · intro x hx
        rw [i2 x (by rw [hnext1]; omega)]
        exact hstore1 x hx
      · intro q hq b hb
        rcases List.mem_cons.mp hq with rfl | hq'
        · simp at hb
          subst hb
          show h.next ≤ h.next ∧ h.next < _
          refine ⟨le_refl _, ?_⟩
          rw [hnext1] at i1
          omega
        · obtain ⟨hb1, hb2⟩ := i3 q hq' b hb
          rw [hnext1] at hb1
          exact ⟨by omega, hb2⟩
      · intro i hi hi'
        cases i with
        | zero =>
          refine ⟨rfl, rfl, rfl, by simp [hd], ?_⟩
          intro a' b ha' hb
          simp only [List.get] at ha' hb
          rw [hd] at ha'
          have ha'' := Option.some.inj ha'
          subst ha''
          have hb' := Option.some.inj hb
          subst hb'
          show (cloneHistoryHeap (allocMap h (h.store a)).1 rest).1.store h.next
              = h.store a
          rw [i2 h.next (by rw [hnext1]; omega)]
          show (if h.next = h.next then h.store a else h.store h.next) = h.store a
          rw [if_pos rfl]
        | succ j =>
          have hj : j < rest.length := by simpa using hi
          have hj' : j < (cloneHistoryHeap (allocMap h (h.store a)).1 rest).2.length := by
            simpa using hi'
          obtain ⟨c1, c2, c3, c4, c5⟩ := i5 j hj hj'
          refine ⟨by simpa using c1, by simpa using c2, by simpa using c3,
            by simpa using c4, ?_⟩
          intro a' b ha' hb
          have ha2 : a' < h.next := by
            apply hval (rest.get ⟨j, hj⟩) (List.mem_cons_of_mem _ (List.get_mem _ _ _))
            simpa using ha'
          have := c5 a' b (by simpa using ha') (by simpa using hb)
          rw [this]
          exact hstore1 a' ha2

lemma appendHistoryHeap_store_lt (h : MapHeap) (hist : List HPoint) (time : ℤ)
    (cpu mem : ℚ) (dl : List DiskStats) (a : ℕ) (ha : a < h.next) :
    (appendHistoryHeap h hist time cpu mem dl).1.store a = h.store a := by
  have hres : (appendHistoryHeap h hist time cpu mem dl).1 =
      if dl.all (fun d => d.mountpoint = "") then h
      else (allocMap h (dl.foldl (fun acc d =>
        if d.mountpoint = "" then acc
        else mapInsert acc d.mountpoint d.usedPercent) [])).1 := rfl
  rw [hres]
  split_ifs
  · rfl
  · exact allocMap_store_lt _ _ _ ha

/-- C7: on the heap model of the per-mount maps, `cloneHistory` returns a
deep copy: the copy's map references are disjoint from the engine's, the
clone leaves every existing map untouched, a caller write through any
copied map never changes an engine map (and vice versa), the copy agrees
with the source pointwise (scalars and map contents), and a subsequent
`appendHistoryLocked` allocates only fresh maps, never writing through any
previously handed-out reference. -/
theorem cloneHistory_deep_copy (h : MapHeap) (src : List HPoint)
    (hval : ∀ p ∈ src, ∀ a, p.disks = some a → a < h.next) :
    (∀ p ∈ src, ∀ q ∈ (cloneHistoryHeap h src).2, ∀ a b,
        p.disks = some a → q.disks = some b → a ≠ b) ∧
    (∀ a, a < h.next → (cloneHistoryHeap h src).1.store a = h.store a) ∧
    (∀ q ∈ (cloneHistoryHeap h src).2, ∀ b, q.disks = some b → ∀ k v,
       ∀ p ∈ src, ∀ a, p.disks = some a →
         (writeMap (cloneHistoryHeap h src).1 b k v).store a = h.store a) ∧
    (∀ p ∈ src, ∀ a, p.disks = some a → ∀ k v,
       ∀ q ∈ (cloneHistoryHeap h src).2, ∀ b, q.disks = some b →
         (writeMap (cloneHistoryHeap h src).1 a k v).store b =
           (cloneHistoryHeap h src).1.store b) ∧
    ((cloneHistoryHeap h src).2.length = src.length ∧
     ∀ i (hi : i < src.length) (hi' : i < (cloneHistoryHeap h src).2.length),
       ((cloneHistoryHeap h src).2.get ⟨i, hi'⟩).time = (src.get ⟨i, hi⟩).time ∧
       ((cloneHistoryHeap h src).2.get ⟨i, hi'⟩).cpu = (src.get ⟨i, hi⟩).cpu ∧
       ((cloneHistoryHeap h src).2.get ⟨i, hi'⟩).mem = (src.get ⟨i, hi⟩).mem ∧
       (((cloneHistoryHeap h src).2.get ⟨i, hi'⟩).disks.isSome ↔
          (src.get ⟨i, hi⟩).disks.isSome) ∧
       (∀ a b, (src.get ⟨i, hi⟩).disks = some a →
          ((cloneHistoryHeap h src).2.get ⟨i, hi'⟩).disks = some b →
          (cloneHistoryHeap h src).1.store b = h.store a)) ∧
    (∀ (hist : List HPoint) (time : ℤ) (cpu mem : ℚ) (dl : List DiskStats) (a : ℕ),
       a < (cloneHistoryHeap h src).1.next →
       (appendHistoryHeap (cloneHistoryHeap h src).1 hist time cpu mem dl).1.store a =
         (cloneHistoryHeap h src).1.store a) := by
  obtain ⟨i1, i2, i3, i4, i5⟩ := cloneHH_spec src h hval
  have hne : ∀ p ∈ src, ∀ q ∈ (cloneHistoryHeap h src).2, ∀ a b,
      p.disks = some a → q.disks = some b → a ≠ b := by
    intro p hp q hq a b ha hb
    have h1 := hval p hp a ha
    have h2 := (i3 q hq b hb).1
    omega
  refine ⟨hne, i2, ?_, ?_, ⟨i4, i5⟩, ?_⟩
  · intro q hq b hb k v p hp a ha
    have hab := hne p hp q hq a b ha hb
    show (if a = b then _ else (cloneHistoryHeap h src).1.store a) = h.store a
    rw [if_neg (fun hc => hab hc)]
    exact i2 a (hval p hp a ha)
  · intro p hp a ha k v q hq b hb
    have hab := hne p hp q hq a b ha hb
    show (if b = a then _ else (cloneHistoryHeap h src).1.store b) =
        (cloneHistoryHeap h src).1.store b
    rw [if_neg (fun hc => hab hc.symm)]
  · intro hist time cpu mem dl a ha
    exact appendHistoryHeap_store_lt _ hist time cpu mem dl a ha

/-- Witness for C7: a one-point history whose map lives at address 0 in a
one-map heap; cloning leaves the engine's map at address 0 intact. -/
theorem cloneHistory_deep_copy_witness :
    (cloneHistoryHeap ⟨1, fun _ => [("/", 42)]⟩ [⟨0, 0, 0, some 0⟩]).1.store 0 =
      (⟨1, fun _ => [("/", 42)]⟩ : MapHeap).store 0 := by
  have h := (cloneHistory_deep_copy ⟨1, fun _ => [("/", 42)]⟩ [⟨0, 0, 0, some 0⟩]
    (by
      intro p hp a ha
      simp at hp
      subst hp
      simp at ha
      show a < 1
      omega)).2.1
  exact h 0 (by norm_num)

end Links
